import Mathlib

/-!
# Verification development for the `import_MT` batch scripts

Shallow embedding of the data-processing logic of the `import_MT`
repository (returns calculators, valuation fetchers, fragment mergers,
theme-metrics injection, index rebuilders), with theorems checking the
natural-language specification against the code.

Conventions used throughout:
* Python floats are modelled as `ℚ` (the scripts only do field arithmetic
  and equality tests on them); `round(x, 4)` is modelled as exact
  half-to-even rounding on rationals.
* Python `None`-able values are `Option`; JSON scalar values are `JValue`.
* Python strings are Lean `String`s, but the string methods the scripts
  use (`strip`, `upper`, `lower`, `zfill`, …) are re-implemented over the
  character list so that every definition evaluates by kernel reduction.
  The re-implementations cover the ASCII range, which is all the scripts'
  data uses them on.
* Network / filesystem reads are inputs of the modelled functions
  (a fetch becomes a function argument, a directory scan becomes a list
  of names); writes become returned values or effect traces.
-/

namespace ImportMT

/-! ## Python string primitives -/

/-- The characters Python's `str.strip()` removes (ASCII whitespace). -/
def isPySpace (c : Char) : Bool :=
  c = ' ' || c = '\t' || c = '\n' || c = '\r' || c = '\x0b' || c = '\x0c'

/-- Python `str.strip()`. -/
def pyStrip (s : String) : String :=
  ⟨((s.data.dropWhile isPySpace).reverse.dropWhile isPySpace).reverse⟩

/-- Python `str.upper()` (ASCII range). -/
def pyUpper (s : String) : String := ⟨s.data.map Char.toUpper⟩

/-- Python `str.lower()` (ASCII range). -/
def pyLower (s : String) : String := ⟨s.data.map Char.toLower⟩

/-- Python `str.zfill(n)` for non-negative strings: pad with `'0'` on the
left up to length `n`. -/
def pyZfill (s : String) (n : Nat) : String :=
  ⟨List.replicate (n - s.data.length) '0' ++ s.data⟩

/-- Python `str.endswith(t)`. -/
def pyEndsWith (s t : String) : Bool :=
  s.data.reverse.take t.data.length = t.data.reverse

/-- Lexicographic order on code points, as Python compares strings. -/
def lexLe : List Char → List Char → Bool
  | [], _ => true
  | _ :: _, [] => false
  | x :: xs, y :: ys =>
    if x.val < y.val then true
    else if y.val < x.val then false
    else lexLe xs ys

/-- Python `s <= t` on strings. -/
def strLe (a b : String) : Bool := lexLe a.data b.data

/-! ## List helpers shared by the embeddings -/

/-- Stable insertion into a `le`-sorted list: the new element goes after
every existing element `y` with `le y x`. -/
def insertSorted (le : α → α → Bool) (x : α) : List α → List α
  | [] => [x]
  | y :: ys => if le y x then y :: insertSorted le x ys else x :: y :: ys

/-- A stable sort (the model of Python's stable `sorted` / `list.sort`). -/
def stableSortBy (le : α → α → Bool) (l : List α) : List α :=
  l.foldl (fun acc x => insertSorted le x acc) []

/-- Python `list(set(l))` followed by processing that only needs the
distinct elements: keep the first occurrence of each element. -/
def dedupKeepFirst [DecidableEq α] (l : List α) : List α :=
  l.foldl (fun acc x => if acc.contains x then acc else acc ++ [x]) []

/-! ## Dates, price series and shared return computation

`update_return_fmp.py` and `update_return_kr.py` (and
`update_theme_metrics.py`) all work on an ascending list of
`(date, close)` pairs; only the calendar year of a date is ever used by
the computations, so a date is a plain `(year, month, day)` triple. -/

/-- A calendar date as the scripts see it. -/
structure PDate where
  year : Nat
  month : Nat
  day : Nat
deriving DecidableEq

/-- An ascending-by-date daily close series. -/
abbrev PriceSeries := List (PDate × ℚ)

/-- `pct_return` — identical in `update_return_fmp.py` (l. 102) and
`update_return_kr.py` (l. 82): `(last/prev - 1) * 100`, `None` when either
input is `None` or the denominator is zero. -/
def pct_return (last_close prev_close : Option ℚ) : Option ℚ :=
  match last_close, prev_close with
  | some l, some p => if p = 0 then none else some ((l / p - 1) * 100)
  | _, _ => none

/-- `RETURN_KEYS` of the returns scripts. -/
def RETURN_KEYS : List String :=
  ["return_3d", "return_7d", "return_1m", "return_ytd", "return_1y", "return_3y"]

/-- `HORIZON_TO_TRADING_DAYS` of the returns scripts. -/
def HORIZON_TO_TRADING_DAYS : List (String × Nat) :=
  [("return_3d", 3), ("return_7d", 7), ("return_1m", 21),
   ("return_1y", 252), ("return_3y", 756)]

/-- The per-horizon loop body of `compute_returns_from_series`
(`update_return_fmp.py` l. 291-296, identically `update_return_kr.py`
l. 184-189): `None` when `len(close_values) <= tdays`, else the percent
return against `close_values[-(tdays+1)]`. -/
def horizon_return (closes : PriceSeries) (tdays : Nat) : Option ℚ :=
  if (closes.map Prod.snd).length ≤ tdays then none
  else
    pct_return (some (closes.getLastD (⟨0, 0, 0⟩, 0)).2)
      (some ((closes.map Prod.snd).getD ((closes.map Prod.snd).length - (tdays + 1)) 0))

/-- The YTD part of `compute_returns_from_series`
(`update_return_fmp.py` l. 298-305, identically `update_return_kr.py`
l. 191-198): percent return of the latest close against the first close
whose date lies in the latest point's calendar year. -/
def ytd_return (closes : PriceSeries) : Option ℚ :=
  let last_d := (closes.getLastD (⟨0, 0, 0⟩, 0)).1
  let ytd_rows := closes.filter (fun dc => dc.1.year == last_d.year)
  match ytd_rows.head? with
  | none => none
  | some first =>
    pct_return (some (closes.getLastD (⟨0, 0, 0⟩, 0)).2) (some first.2)

/-- `compute_returns_from_series` (`update_return_fmp.py` l. 285-310;
the same computation is inlined in `compute_returns_for_ticker` of
`update_return_kr.py` l. 179-203).  Returns the latest date and the
per-key returns in the dict's insertion order; the Python
`ret.setdefault(k, None)` loop adds nothing because all six keys are
already present.  The caller guarantees `closes ≠ []` (the Python code
indexes `closes[-1]`). -/
def compute_returns_from_series (closes : PriceSeries) :
    PDate × List (String × Option ℚ) :=
  ((closes.getLastD (⟨0, 0, 0⟩, 0)).1,
   [("return_3d", horizon_return closes 3),
    ("return_7d", horizon_return closes 7),
    ("return_1m", horizon_return closes 21),
    ("return_1y", horizon_return closes 252),
    ("return_3y", horizon_return closes 756),
    ("return_ytd", ytd_return closes)])

/-- Modelled from the claim text (C1): the return at a horizon is
`(latest_close / close_at(offset) - 1) * 100` where `close_at(offset)` is
the close `offset` trading days back from the latest point, and it is
null exactly when the series has fewer than `offset+1` points or that
denominator is zero. -/
def claim_horizon_return (closes : PriceSeries) (off : Nat) : Option ℚ :=
  match closes.getLast? with
  | none => none
  | some lastPair =>
    match ((closes.map Prod.snd).reverse)[off]? with
    | none => none
    | some prev => if prev = 0 then none else some ((lastPair.2 / prev - 1) * 100)

/-! ### Lookup helper lemmas -/

theorem lookup_cons_same {β : Type _} (k : String) (v : β) (l : List (String × β)) :
    List.lookup k ((k, v) :: l) = some v := by
  simp [List.lookup]

theorem lookup_cons_diff {β : Type _} {k a : String} (v : β) (l : List (String × β))
    (h : k ≠ a) : List.lookup k ((a, v) :: l) = List.lookup k l := by
  simp [List.lookup, beq_eq_false_iff_ne.mpr h]

/-! ### C1 support lemmas -/

theorem horizon_return_eq_claim (closes : PriceSeries) (h : closes ≠ [])
    (td : Nat) : horizon_return closes td = claim_horizon_return closes td := by
  obtain ⟨lastPair, hlast⟩ := Option.isSome_iff_exists.mp (List.getLast?_isSome.mpr h)
  have hD : closes.getLastD (⟨0, 0, 0⟩, 0) = lastPair := by
    rw [List.getLastD_eq_getLast?, hlast]; rfl
  unfold horizon_return claim_horizon_return
  rw [hlast, hD]
  have hlen : (closes.map Prod.snd).length = closes.length := by simp
  by_cases hle : (closes.map Prod.snd).length ≤ td
  · have hnone : ((closes.map Prod.snd).reverse)[td]? = none := by
      apply List.getElem?_eq_none
      simpa using hle
    rw [hnone, if_pos hle]
  · have hlt : td < (closes.map Prod.snd).length := by omega
    have hrev : ((closes.map Prod.snd).reverse)[td]? =
        (closes.map Prod.snd)[(closes.map Prod.snd).length - 1 - td]? := by
      exact List.getElem?_reverse hlt
    have hidx : (closes.map Prod.snd).length - 1 - td <
        (closes.map Prod.snd).length := by omega
    have hD2 : (closes.map Prod.snd).getD ((closes.map Prod.snd).length - (td + 1)) 0 =
        (closes.map Prod.snd)[(closes.map Prod.snd).length - 1 - td] := by
      have heq : (closes.map Prod.snd).length - (td + 1) =
          (closes.map Prod.snd).length - 1 - td := by omega
      rw [heq, List.getD_eq_getElem _ _ hidx]
    rw [hrev, List.getElem?_eq_getElem hidx, if_neg hle, hD2]
    rfl

/-- `[(2024-01-02, 100), (2024-06-01, 150)]`: the YTD example series of
the spec. -/
def ytdExample : PriceSeries := [(⟨2024, 1, 2⟩, 100), (⟨2024, 6, 1⟩, 150)]

/-- C1. Returns Calculator: for each named horizon, the computed return
equals the claimed `(latest/close_at(offset) - 1) * 100` with the claimed
null conditions (`claim_horizon_return`); the YTD example
`[(2024-01-02, 100), (2024-06-01, 150)]` yields `return_ytd = 50`;
and a constant non-zero price series longer than a horizon's offset
yields `0` (not null) at that horizon. -/
theorem C1_returns_calculator :
    (∀ closes : PriceSeries, closes ≠ [] →
      ∀ k td, (k, td) ∈ HORIZON_TO_TRADING_DAYS →
        (compute_returns_from_series closes).2.lookup k =
          some (claim_horizon_return closes td))
    ∧ ((compute_returns_from_series ytdExample).2.lookup "return_ytd" =
        some (some 50))
    ∧ (∀ (d : PDate) (c : ℚ), c ≠ 0 →
        ∀ k td, (k, td) ∈ HORIZON_TO_TRADING_DAYS → ∀ n, td < n →
          (compute_returns_from_series (List.replicate n (d, c))).2.lookup k =
            some (some 0)) := by
  refine ⟨?_, ?_, ?_⟩
  · intro closes h k td hk
    have hcase :
        (k = "return_3d" ∧ td = 3) ∨ (k = "return_7d" ∧ td = 7) ∨
        (k = "return_1m" ∧ td = 21) ∨ (k = "return_1y" ∧ td = 252) ∨
        (k = "return_3y" ∧ td = 756) := by
      simpa [HORIZON_TO_TRADING_DAYS, Prod.ext_iff] using hk
    have he := horizon_return_eq_claim closes h
    rcases hcase with ⟨rfl, rfl⟩ | ⟨rfl, rfl⟩ | ⟨rfl, rfl⟩ | ⟨rfl, rfl⟩ | ⟨rfl, rfl⟩ <;>
      simp [compute_returns_from_series, List.lookup, he]
  · have h100 : (100 : ℚ) ≠ 0 := by norm_num
    simp [compute_returns_from_series, ytd_return, ytdExample, List.lookup,
      List.filter, pct_return]
    norm_num
  · intro d c hc k td hk n hn
    have hcase :
        (k = "return_3d" ∧ td = 3) ∨ (k = "return_7d" ∧ td = 7) ∨
        (k = "return_1m" ∧ td = 21) ∨ (k = "return_1y" ∧ td = 252) ∨
        (k = "return_3y" ∧ td = 756) := by
      simpa [HORIZON_TO_TRADING_DAYS, Prod.ext_iff] using hk
    have hhz : horizon_return (List.replicate n (d, c)) td = some 0 := by
      unfold horizon_return
      have hmap : (List.replicate n (d, c)).map Prod.snd = List.replicate n c := by
        simp
      have hlen : ((List.replicate n (d, c)).map Prod.snd).length = n := by simp
      have hle : ¬ ((List.replicate n (d, c)).map Prod.snd).length ≤ td := by
        omega
      have hlast : (List.replicate n (d, c)).getLastD (⟨0, 0, 0⟩, 0) = (d, c) := by
        cases n with
        | zero => omega
        | succ m =>
          rw [List.getLastD_eq_getLast?, List.getLast?_replicate]
          simp
      have hidx : ((List.replicate n (d, c)).map Prod.snd).length - (td + 1) < n := by
        omega
      have hgetD : ((List.replicate n (d, c)).map Prod.snd).getD
          (((List.replicate n (d, c)).map Prod.snd).length - (td + 1)) 0 = c := by
        rw [hmap]
        rw [List.getD_eq_getElem _ _ (by simpa using hidx)]
        exact List.getElem_replicate _ _
      rw [if_neg hle, hlast, hgetD]
      simp [pct_return, hc, div_self hc]
    rcases hcase with ⟨rfl, rfl⟩ | ⟨rfl, rfl⟩ | ⟨rfl, rfl⟩ | ⟨rfl, rfl⟩ | ⟨rfl, rfl⟩ <;>
      simp [compute_returns_from_series, List.lookup, hhz]

/-- Witness for C1 at the concrete series `ytdExample`. -/
theorem C1_returns_calculator_witness :
    (ytdExample ≠ ([] : PriceSeries)) ∧
    ((compute_returns_from_series ytdExample).2.lookup "return_3d" =
      some (claim_horizon_return ytdExample 3)) :=
  ⟨List.cons_ne_nil _ _,
   C1_returns_calculator.1 ytdExample (List.cons_ne_nil _ _) "return_3d" 3 (by decide)⟩

/-! ## C5: normalization and rounding (`update_theme_metrics.py`)

`update_theme_metrics.py` post-processes each non-null return with
`normalize_pct` (× 100 when the magnitude is at most 1.5) and
`round(·, 4)`; the returns cache builders do not.  Python's `round` is
half-to-even; it is modelled exactly on rationals. -/

namespace ThemeMetrics

/-- Half-to-even rounding to an integer (the model of Python's `round`). -/
def roundHalfEven (q : ℚ) : ℤ :=
  if q - ⌊q⌋ < 1/2 then ⌊q⌋
  else if 1/2 < q - ⌊q⌋ then ⌊q⌋ + 1
  else if ⌊q⌋ % 2 = 0 then ⌊q⌋ else ⌊q⌋ + 1

/-- Python `round(q, 4)`. -/
def round4 (q : ℚ) : ℚ := (roundHalfEven (q * 10000) : ℚ) / 10000

/-- `normalize_pct` (`update_theme_metrics.py` l. 109-111): a value of
magnitude at most 1.5 is taken to be fractional and scaled by 100. -/
def normalize_pct (v : ℚ) : ℚ := if |v| ≤ 3/2 then v * 100 else v

/-- The `normalize + round` loop of `compute_returns_from_close`
(`update_theme_metrics.py` l. 154-157) applied to one value. -/
def post_pct (o : Option ℚ) : Option ℚ :=
  o.map (fun v => round4 (normalize_pct v))

/-- `n_trading_days_ago` (`update_theme_metrics.py` l. 136-139). -/
def n_trading_days_ago (closes : List ℚ) (n : Nat) : Option ℚ :=
  if closes.length ≤ n then none
  else some (closes.getD (closes.length - 1 - n) 0)

/-- `latest = closes[-1]` of `compute_returns_from_close`. -/
def latest_close (df : PriceSeries) : ℚ := (df.map Prod.snd).getLastD 0

/-- `compute_returns_from_close` (`update_theme_metrics.py` l. 122-158).
The YTD block (l. 147-152) inlines the same computation as `ytd_return`;
keys are in the dict's insertion order. -/
def compute_returns_from_close (df : PriceSeries) : List (String × Option ℚ) :=
  if df = [] then
    [("ret3d", none), ("ret7d", none), ("ret1m", none),
     ("retYtd", none), ("ret1y", none), ("ret3y", none)]
  else
    [("ret3d", post_pct (pct_return (some (latest_close df))
        (n_trading_days_ago (df.map Prod.snd) 3))),
     ("ret7d", post_pct (pct_return (some (latest_close df))
        (n_trading_days_ago (df.map Prod.snd) 7))),
     ("ret1m", post_pct (pct_return (some (latest_close df))
        (n_trading_days_ago (df.map Prod.snd) 21))),
     ("retYtd", post_pct (ytd_return df)),
     ("ret1y", post_pct (pct_return (some (latest_close df))
        (n_trading_days_ago (df.map Prod.snd) 252))),
     ("ret3y", post_pct (pct_return (some (latest_close df))
        (n_trading_days_ago (df.map Prod.snd) 756)))]

theorem latest_close_eq (df : PriceSeries) (h : df ≠ []) :
    latest_close df = (df.getLastD (⟨0, 0, 0⟩, 0)).2 := by
  obtain ⟨lastPair, hlast⟩ := Option.isSome_iff_exists.mp (List.getLast?_isSome.mpr h)
  unfold latest_close
  rw [List.getLastD_eq_getLast?, List.getLastD_eq_getLast?, List.getLast?_map, hlast]
  rfl

/-- The raw (pre-normalization) horizon value of
`compute_returns_from_close` coincides with the cache builders'
`horizon_return`. -/
theorem close_raw_eq_horizon (df : PriceSeries) (h : df ≠ []) (n : Nat) :
    pct_return (some (latest_close df)) (n_trading_days_ago (df.map Prod.snd) n) =
      horizon_return df n := by
  unfold n_trading_days_ago horizon_return
  by_cases hle : (df.map Prod.snd).length ≤ n
  · rw [if_pos hle, if_pos hle]
    rfl
  · rw [if_neg hle, if_neg hle, latest_close_eq df h]
    have hidx : (df.map Prod.snd).length - 1 - n = (df.map Prod.snd).length - (n + 1) := by
      omega
    rw [hidx]

/-- The translation between `update_theme_metrics.py` result keys and the
cache builders' keys, with the trading-day offset. -/
def CLOSE_KEY_MAP : List (String × String × Nat) :=
  [("ret3d", "return_3d", 3), ("ret7d", "return_7d", 7), ("ret1m", "return_1m", 21),
   ("ret1y", "return_1y", 252), ("ret3y", "return_3y", 756)]

end ThemeMetrics

/-- C5 (amended). `normalize_pct` maps `0.10` to `10.0` and leaves `12.0`
unchanged, and `update_theme_metrics.compute_returns_from_close` emits
`round4 (normalize_pct raw)` for each horizon and for YTD — but the
returns cache builders' `compute_returns_from_series` emits each raw
value unprocessed. -/
theorem C5_normalization_amended :
    (ThemeMetrics.normalize_pct (1/10) = 10)
    ∧ (ThemeMetrics.normalize_pct 12 = 12)
    ∧ (∀ df : PriceSeries, df ≠ [] →
        ∀ kc ks td, (kc, ks, td) ∈ ThemeMetrics.CLOSE_KEY_MAP →
          (ThemeMetrics.compute_returns_from_close df).lookup kc =
            some (ThemeMetrics.post_pct (horizon_return df td))
          ∧ (compute_returns_from_series df).2.lookup ks =
              some (horizon_return df td))
    ∧ (∀ df : PriceSeries, df ≠ [] →
        (ThemeMetrics.compute_returns_from_close df).lookup "retYtd" =
          some (ThemeMetrics.post_pct (ytd_return df))
        ∧ (compute_returns_from_series df).2.lookup "return_ytd" =
            some (ytd_return df)) := by
  refine ⟨?_, ?_, ?_, ?_⟩
  · rw [ThemeMetrics.normalize_pct, if_pos (by norm_num [abs_le] : |(1/10 : ℚ)| ≤ 3/2)]
    norm_num
  · rw [ThemeMetrics.normalize_pct, if_neg (by norm_num [abs_le] : ¬ |(12 : ℚ)| ≤ 3/2)]
  · intro df h kc ks td hk
    have hcase :
        (kc = "ret3d" ∧ ks = "return_3d" ∧ td = 3) ∨
        (kc = "ret7d" ∧ ks = "return_7d" ∧ td = 7) ∨
        (kc = "ret1m" ∧ ks = "return_1m" ∧ td = 21) ∨
        (kc = "ret1y" ∧ ks = "return_1y" ∧ td = 252) ∨
        (kc = "ret3y" ∧ ks = "return_3y" ∧ td = 756) := by
      simpa [ThemeMetrics.CLOSE_KEY_MAP, Prod.ext_iff] using hk
    have hr := ThemeMetrics.close_raw_eq_horizon df h
    rcases hcase with ⟨rfl, rfl, rfl⟩ | ⟨rfl, rfl, rfl⟩ | ⟨rfl, rfl, rfl⟩ |
      ⟨rfl, rfl, rfl⟩ | ⟨rfl, rfl, rfl⟩ <;>
      exact ⟨by simp [ThemeMetrics.compute_returns_from_close, h, List.lookup, hr],
             by simp [compute_returns_from_series, List.lookup]⟩
  · intro df h
    exact ⟨by simp [ThemeMetrics.compute_returns_from_close, h, List.lookup],
           by simp [compute_returns_from_series, List.lookup]⟩

/-- Witness for C5 (amended) at the concrete series `ytdExample`. -/
theorem C5_normalization_amended_witness :
    (ytdExample ≠ ([] : PriceSeries)) ∧
    ((ThemeMetrics.compute_returns_from_close ytdExample).lookup "retYtd" =
      some (ThemeMetrics.post_pct (ytd_return ytdExample))) :=
  ⟨List.cons_ne_nil _ _,
   (C5_normalization_amended.2.2.2 ytdExample (List.cons_ne_nil _ _)).1⟩

/-- The concrete series refuting C5 as stated: its 3-trading-day return
is `0.1`, emitted unnormalized and unrounded by the cache builders. -/
def c5series : PriceSeries :=
  [(⟨2024, 1, 2⟩, 1000), (⟨2024, 1, 3⟩, 1000),
   (⟨2024, 1, 4⟩, 1000), (⟨2024, 1, 5⟩, 1001)]

/-- Counterexample to C5 as stated: the cache builder emits the raw value
`0.1` for `return_3d` on `c5series`, while the claimed post-processing
would store `10.0`. -/
theorem C5_counterexample :
    (compute_returns_from_series c5series).2.lookup "return_3d" = some (some (1/10))
    ∧ ThemeMetrics.round4 (ThemeMetrics.normalize_pct (1/10)) = 10
    ∧ ¬ ((1/10 : ℚ) = ThemeMetrics.round4 (ThemeMetrics.normalize_pct (1/10))) := by
  have hnorm : ThemeMetrics.normalize_pct (1/10) = 10 := by
    rw [ThemeMetrics.normalize_pct, if_pos (by norm_num [abs_le] : |(1/10 : ℚ)| ≤ 3/2)]
    norm_num
  have hround : ThemeMetrics.round4 (10 : ℚ) = 10 := by
    have hfl : ⌊(10 : ℚ) * 10000⌋ = 100000 := by norm_num
    rw [ThemeMetrics.round4, ThemeMetrics.roundHalfEven, hfl]
    norm_num
  refine ⟨?_, by rw [hnorm, hround], by rw [hnorm, hround]; norm_num⟩
  have h3 : horizon_return c5series 3 = some (1/10) := by
    rw [horizon_return]
    norm_num [c5series, pct_return]
  simp [compute_returns_from_series, List.lookup, h3]

/-! ## Helper lemmas about the stable sort and dedup models -/

theorem insertSorted_perm (le : α → α → Bool) (x : α) (l : List α) :
    List.Perm (insertSorted le x l) (x :: l) := by
  induction l with
  | nil => rfl
  | cons y ys ih =>
    rw [insertSorted]
    by_cases h : le y x = true
    · rw [if_pos h]
      exact (ih.cons y).trans (List.Perm.swap x y ys)
    · rw [if_neg h]

theorem foldl_insertSorted_perm (le : α → α → Bool) (l acc : List α) :
    List.Perm (l.foldl (fun a x => insertSorted le x a) acc) (acc ++ l) := by
  induction l generalizing acc with
  | nil => simp
  | cons y ys ih =>
    refine List.Perm.trans (ih (insertSorted le y acc)) ?_
    refine List.Perm.trans ((insertSorted_perm le y acc).append_right ys) ?_
    exact List.perm_middle.symm

theorem stableSortBy_perm (le : α → α → Bool) (l : List α) :
    List.Perm (stableSortBy le l) l := by
  simpa using foldl_insertSorted_perm le l []

theorem mem_stableSortBy (le : α → α → Bool) (l : List α) (a : α) :
    a ∈ stableSortBy le l ↔ a ∈ l :=
  (stableSortBy_perm le l).mem_iff

theorem dedup_fold_invariant [DecidableEq α] (l acc : List α) :
    (∀ a, a ∈ l.foldl (fun acc x => if acc.contains x then acc else acc ++ [x]) acc ↔
      (a ∈ acc ∨ a ∈ l))
    ∧ (acc.Nodup →
        (l.foldl (fun acc x => if acc.contains x then acc else acc ++ [x]) acc).Nodup) := by
  induction l generalizing acc with
  | nil => simp
  | cons y ys ih =>
    constructor
    · intro a
      by_cases h : acc.contains y
      · have hy : y ∈ acc := by simpa using h
        simp only [List.foldl_cons, if_pos h]
        rw [(ih acc).1 a]
        constructor
        · rintro (ha | ha)
          · exact Or.inl ha
          · exact Or.inr (List.mem_cons_of_mem _ ha)
        · rintro (ha | ha)
          · exact Or.inl ha
          · rcases List.mem_cons.mp ha with rfl | ha
            · exact Or.inl hy
            · exact Or.inr ha
      · simp only [List.foldl_cons, if_neg h]
        rw [(ih (acc ++ [y])).1 a]
        simp only [List.mem_append, List.mem_singleton, List.mem_cons]
        tauto
    · intro hnd
      by_cases h : acc.contains y
      · simp only [List.foldl_cons, if_pos h]
        exact (ih acc).2 hnd
      · simp only [List.foldl_cons, if_neg h]
        refine (ih (acc ++ [y])).2 ?_
        refine List.Nodup.append hnd (List.nodup_singleton y) ?_
        intro a ha hb
        rcases List.mem_singleton.mp hb with rfl
        exact absurd ha (by simpa using h)

theorem mem_dedupKeepFirst [DecidableEq α] (l : List α) (a : α) :
    a ∈ dedupKeepFirst l ↔ a ∈ l := by
  rw [dedupKeepFirst, (dedup_fold_invariant l []).1 a]
  simp

theorem nodup_dedupKeepFirst [DecidableEq α] (l : List α) :
    (dedupKeepFirst l).Nodup :=
  (dedup_fold_invariant l []).2 List.nodup_nil

/-! ## C10 / C8: the returns cache builder mains

`update_return_fmp.py`'s `main` fetches each distinct symbol once
(recording failures in `skipped` by reason tag) and then emits one items
entry per `(assetId, ticker)` pair of the SSOT mapping;
`update_return_kr.py`'s `main` fetches per asset directly and emits one
entry per pair, with no failure record.  The network fetch is an input
function. -/

/-- One entry of the `items` object of a returns cache. -/
structure RetItem where
  ticker : String
  vals : List (String × Option ℚ)
deriving DecidableEq

/-- `{k: None for k in RETURN_KEYS}`. -/
def null_returns : List (String × Option ℚ) := RETURN_KEYS.map (fun k => (k, none))

namespace ReturnFmp

/-- Outcome of `fetch_eod_full` + `parse_eod_series` for one symbol
(`update_return_fmp.py` l. 343-350): either an HTTP/JSON failure with its
reason tag, or a 200 response whose parse yields `some` series or `none`. -/
inductive FetchedSeries where
  | fetched (series : Option PriceSeries)
  | failed (tag : String)

/-- The preset keys of the `skipped` record (`update_return_fmp.py`
l. 322-330). -/
def SKIP_INIT : List (String × List String) :=
  [("PAYMENT_REQUIRED", []), ("RATE_LIMIT", []), ("UNAUTHORIZED", []),
   ("FORBIDDEN", []), ("NOT_FOUND", []), ("HTTP_OTHER", []), ("BAD_JSON", [])]

/-- `skipped.setdefault(tag, []).append(sym)`. -/
def add_skip (sk : List (String × List String)) (tag sym : String) :
    List (String × List String) :=
  match sk with
  | [] => [(tag, [sym])]
  | (t, l) :: rest =>
    if t = tag then (t, l ++ [sym]) :: rest else (t, l) :: add_skip rest tag sym

/-- The per-symbol fetch loop (`update_return_fmp.py` l. 339-353),
returning the series cache and the `skipped` record. -/
def fetch_loop (fetch : String → FetchedSeries) (syms : List String) :
    List (String × Option PriceSeries) × List (String × List String) :=
  syms.foldl (fun acc sym =>
    match fetch sym with
    | .failed tag => (acc.1 ++ [(sym, none)], add_skip acc.2 tag sym)
    | .fetched s => (acc.1 ++ [(sym, s)], acc.2)) ([], SKIP_INIT)

/-- The items entry for one asset (`update_return_fmp.py` l. 356-364):
all-null returns when the cached series is `None` or empty, the computed
returns otherwise. -/
def item_for (cache : List (String × Option PriceSeries)) (sym : String) : RetItem :=
  match (cache.lookup sym).getD none with
  | none => ⟨sym, null_returns⟩
  | some closes =>
    if closes = [] then ⟨sym, null_returns⟩
    else ⟨sym, (compute_returns_from_series closes).2⟩

/-- `main` of `update_return_fmp.py` (l. 313-386) up to the written
payload's `items` and `skipped` fields: fetch each distinct symbol once
(`sorted(list(set(...)))`), then one entry per SSOT pair. -/
def run_update_return_fmp (asset_map : List (String × String))
    (fetch : String → FetchedSeries) :
    List (String × RetItem) × List (String × List String) :=
  let unique_symbols := stableSortBy strLe (dedupKeepFirst (asset_map.map Prod.snd))
  let fetched := fetch_loop fetch unique_symbols
  (asset_map.map (fun p => (p.1, item_for fetched.1 p.2)), fetched.2)

end ReturnFmp

namespace ReturnKr

/-- `compute_returns_for_ticker` (`update_return_kr.py` l. 171-203) given
the fetched series (`fetch_close_series` returns `None` on failure or an
empty frame; the `if not closes` guard also catches `[]`). -/
def compute_returns_for_ticker (fetched : Option PriceSeries) :
    List (String × Option ℚ) :=
  match fetched with
  | none => null_returns
  | some closes =>
    if closes = [] then null_returns
    else (compute_returns_from_series closes).2

/-- `main` of `update_return_kr.py` (l. 205-234) up to the written
payload's `items`: one entry per `(assetId, ticker)` pair. -/
def run_update_return_kr (asset_map : List (String × String))
    (fetchKr : String → Option PriceSeries) : List (String × RetItem) :=
  asset_map.map (fun p => (p.1, ⟨p.2, compute_returns_for_ticker (fetchKr p.2)⟩))

end ReturnKr

/-! ### Lookup lemmas for keyed item lists -/

theorem lookup_map_pairs {β : Type _} (l : List (String × String))
    (g : String × String → β) (hnd : (l.map Prod.fst).Nodup)
    (aid sym : String) (hm : (aid, sym) ∈ l) :
    (l.map (fun p => (p.1, g p))).lookup aid = some (g (aid, sym)) := by
  induction l with
  | nil => cases hm
  | cons hd tl ih =>
    rcases List.mem_cons.mp hm with rfl | hm'
    · exact lookup_cons_same _ _ _
    · have hne : aid ≠ hd.1 := by
        intro h
        have : aid ∈ tl.map Prod.fst := List.mem_map_of_mem Prod.fst hm'
        rw [List.map_cons, List.nodup_cons] at hnd
        exact hnd.1 (h ▸ this)
      rw [List.map_cons, lookup_cons_diff _ _ hne]
      exact ih (by rw [List.map_cons, List.nodup_cons] at hnd; exact hnd.2) hm'

theorem lookup_null_returns (k : String) (hk : k ∈ RETURN_KEYS) :
    null_returns.lookup k = some none := by
  have hcase : k = "return_3d" ∨ k = "return_7d" ∨ k = "return_1m" ∨
      k = "return_ytd" ∨ k = "return_1y" ∨ k = "return_3y" := by
    simpa [RETURN_KEYS] using hk
  rcases hcase with rfl | rfl | rfl | rfl | rfl | rfl <;> decide

theorem lookup_series_isSome (closes : PriceSeries) (k : String)
    (hk : k ∈ RETURN_KEYS) :
    ((compute_returns_from_series closes).2.lookup k).isSome := by
  have hcase : k = "return_3d" ∨ k = "return_7d" ∨ k = "return_1m" ∨
      k = "return_ytd" ∨ k = "return_1y" ∨ k = "return_3y" := by
    simpa [RETURN_KEYS] using hk
  rcases hcase with rfl | rfl | rfl | rfl | rfl | rfl <;>
    simp [compute_returns_from_series, List.lookup]

theorem lookup_map_self {β : Type _} (syms : List String) (f : String → β)
    (hnd : syms.Nodup) (sym : String) (hm : sym ∈ syms) :
    (syms.map (fun s => (s, f s))).lookup sym = some (f sym) := by
  induction syms with
  | nil => cases hm
  | cons hd tl ih =>
    rcases List.mem_cons.mp hm with rfl | hm'
    · exact lookup_cons_same _ _ _
    · have hne : sym ≠ hd := by
        rintro rfl
        exact (List.nodup_cons.mp hnd).1 hm'
      rw [List.map_cons, lookup_cons_diff _ _ hne]
      exact ih (List.nodup_cons.mp hnd).2 hm'

namespace ReturnFmp

/-- The series the fetch loop caches for one symbol. -/
def cache_entry (f : FetchedSeries) : Option PriceSeries :=
  match f with
  | .fetched s => s
  | .failed _ => none

theorem fetch_loop_fst (fetch : String → FetchedSeries) (syms : List String) :
    ∀ acc : List (String × Option PriceSeries) × List (String × List String),
      (syms.foldl (fun acc sym =>
        match fetch sym with
        | .failed tag => (acc.1 ++ [(sym, none)], add_skip acc.2 tag sym)
        | .fetched s => (acc.1 ++ [(sym, s)], acc.2)) acc).1 =
      acc.1 ++ syms.map (fun s => (s, cache_entry (fetch s))) := by
  induction syms with
  | nil => intro acc; simp
  | cons y ys ih =>
    intro acc
    rw [List.foldl_cons]
    rcases hf : fetch y with s | tag <;>
      simp [hf, ih, cache_entry]

theorem fetch_loop_cache (fetch : String → FetchedSeries) (syms : List String) :
    (fetch_loop fetch syms).1 = syms.map (fun s => (s, cache_entry (fetch s))) := by
  rw [fetch_loop]
  simpa using fetch_loop_fst fetch syms ([], SKIP_INIT)

/-- `sym` is recorded in the skipped map under `tag`. -/
def skip_has (sk : List (String × List String)) (tag sym : String) : Prop :=
  ∃ l, sk.lookup tag = some l ∧ sym ∈ l

theorem add_skip_same (sk : List (String × List String)) (tag sym : String) :
    skip_has (add_skip sk tag sym) tag sym := by
  induction sk with
  | nil => exact ⟨[sym], lookup_cons_same _ _ _, List.mem_singleton_self sym⟩
  | cons hd rest ih =>
    rcases hd with ⟨t, l⟩
    rw [add_skip]
    by_cases h : t = tag
    · subst h
      rw [if_pos rfl]
      exact ⟨l ++ [sym], lookup_cons_same _ _ _, by simp⟩
    · rw [if_neg h]
      obtain ⟨l', hl', hm⟩ := ih
      exact ⟨l', by rw [lookup_cons_diff _ _ (Ne.symm h)]; exact hl', hm⟩

theorem add_skip_mono (sk : List (String × List String)) (tag sym tag' sym' : String)
    (h : skip_has sk tag sym) : skip_has (add_skip sk tag' sym') tag sym := by
  induction sk with
  | nil =>
    obtain ⟨l, hl, _⟩ := h
    simp [List.lookup] at hl
  | cons hd rest ih =>
    rcases hd with ⟨t, l⟩
    obtain ⟨l0, hl0, hm0⟩ := h
    rw [add_skip]
    by_cases ht : t = tag'
    · subst ht
      rw [if_pos rfl]
      by_cases htag : tag = t
      · subst htag
        rw [lookup_cons_same] at hl0
        obtain rfl := Option.some.inj hl0
        exact ⟨l ++ [sym'], lookup_cons_same _ _ _, List.mem_append_left _ hm0⟩
      · rw [lookup_cons_diff _ _ htag] at hl0
        exact ⟨l0, by rw [lookup_cons_diff _ _ htag]; exact hl0, hm0⟩
    · rw [if_neg ht]
      by_cases htag : tag = t
      · subst htag
        rw [lookup_cons_same] at hl0
        obtain rfl := Option.some.inj hl0
        exact ⟨l, lookup_cons_same _ _ _, hm0⟩
      · rw [lookup_cons_diff _ _ htag] at hl0
        obtain ⟨l', hl', hm'⟩ := ih ⟨l0, hl0, hm0⟩
        exact ⟨l', by rw [lookup_cons_diff _ _ htag]; exact hl', hm'⟩

theorem fetch_loop_skip_mono (fetch : String → FetchedSeries) (syms : List String)
    (acc : List (String × Option PriceSeries) × List (String × List String))
    (tag sym : String) (h : skip_has acc.2 tag sym) :
    skip_has ((syms.foldl (fun acc sym =>
      match fetch sym with
      | .failed tag => (acc.1 ++ [(sym, none)], add_skip acc.2 tag sym)
      | .fetched s => (acc.1 ++ [(sym, s)], acc.2)) acc)).2 tag sym := by
  induction syms generalizing acc with
  | nil => exact h
  | cons y ys ih =>
    rw [List.foldl_cons]
    rcases hf : fetch y with s | t
    · exact ih _ (by simpa [hf] using h)
    · refine ih _ ?_
      simp only [hf]
      exact add_skip_mono _ _ _ _ _ h

theorem fetch_loop_skip_aux (fetch : String → FetchedSeries) (sym tag : String)
    (hf : fetch sym = .failed tag) :
    ∀ (syms : List String)
      (acc : List (String × Option PriceSeries) × List (String × List String)),
      sym ∈ syms →
      skip_has ((syms.foldl (fun acc sym =>
        match fetch sym with
        | .failed tag => (acc.1 ++ [(sym, none)], add_skip acc.2 tag sym)
        | .fetched s => (acc.1 ++ [(sym, s)], acc.2)) acc)).2 tag sym := by
  intro syms
  induction syms with
  | nil => intro acc hm; cases hm
  | cons y ys ih =>
    intro acc hm
    rw [List.foldl_cons]
    rcases List.mem_cons.mp hm with rfl | hm'
    · simp only [hf]
      exact fetch_loop_skip_mono fetch ys _ tag sym (add_skip_same _ _ _)
    · rcases hfy : fetch y with s | t <;> simp only [hfy] <;> exact ih _ hm'

theorem fetch_loop_skip (fetch : String → FetchedSeries) (syms : List String)
    (sym tag : String) (hm : sym ∈ syms) (hf : fetch sym = .failed tag) :
    skip_has (fetch_loop fetch syms).2 tag sym := by
  rw [fetch_loop]
  exact fetch_loop_skip_aux fetch sym tag hf syms ([], SKIP_INIT) hm

theorem item_for_ticker (cache : List (String × Option PriceSeries)) (sym : String) :
    (item_for cache sym).ticker = sym := by
  rw [item_for]
  rcases (cache.lookup sym).getD none with _ | closes
  · rfl
  · by_cases h : closes = [] <;> simp [h]

theorem item_for_vals (cache : List (String × Option PriceSeries)) (sym k : String)
    (hk : k ∈ RETURN_KEYS) : ((item_for cache sym).vals.lookup k).isSome := by
  rw [item_for]
  rcases (cache.lookup sym).getD none with _ | closes
  · simp [lookup_null_returns k hk]
  · by_cases h : closes = []
    · simp [h, lookup_null_returns k hk]
    · simpa [h] using lookup_series_isSome closes k hk

end ReturnFmp

/-- C10. Each returns cache builder emits exactly one items entry per
`(assetId, ticker)` input pair, keyed by assetId and carrying the ticker
and all six return keys; when the fetch for an asset's symbol fails (or
parses to no data), the entry is still emitted with every return key
null.  Hence the output key list equals the input key list. -/
theorem C10_returns_items_cover_inputs :
    (∀ (asset_map : List (String × String)) (fetch : String → ReturnFmp.FetchedSeries),
      (asset_map.map Prod.fst).Nodup →
      ((ReturnFmp.run_update_return_fmp asset_map fetch).1.map Prod.fst =
        asset_map.map Prod.fst)
      ∧ (∀ aid sym, (aid, sym) ∈ asset_map →
          ∃ item, (ReturnFmp.run_update_return_fmp asset_map fetch).1.lookup aid =
              some item
            ∧ item.ticker = sym
            ∧ (∀ k ∈ RETURN_KEYS, (item.vals.lookup k).isSome)
            ∧ ((ReturnFmp.cache_entry (fetch sym) = none ∨
                ReturnFmp.cache_entry (fetch sym) = some []) →
              ∀ k ∈ RETURN_KEYS, item.vals.lookup k = some none)))
    ∧ (∀ (asset_map : List (String × String)) (fetchKr : String → Option PriceSeries),
      (asset_map.map Prod.fst).Nodup →
      ((ReturnKr.run_update_return_kr asset_map fetchKr).map Prod.fst =
        asset_map.map Prod.fst)
      ∧ (∀ aid t, (aid, t) ∈ asset_map →
          ∃ item, (ReturnKr.run_update_return_kr asset_map fetchKr).lookup aid =
              some item
            ∧ item.ticker = t
            ∧ (∀ k ∈ RETURN_KEYS, (item.vals.lookup k).isSome)
            ∧ ((fetchKr t = none ∨ fetchKr t = some []) →
              ∀ k ∈ RETURN_KEYS, item.vals.lookup k = some none))) := by
  constructor
  · intro asset_map fetch hnd
    constructor
    · simp [ReturnFmp.run_update_return_fmp]
    · intro aid sym hm
      refine ⟨ReturnFmp.item_for (ReturnFmp.fetch_loop fetch
        (stableSortBy strLe (dedupKeepFirst (asset_map.map Prod.snd)))).1 sym,
        ?_, ReturnFmp.item_for_ticker _ _, ReturnFmp.item_for_vals _ _, ?_⟩
      · rw [ReturnFmp.run_update_return_fmp]
        exact lookup_map_pairs asset_map _ hnd aid sym hm
      · intro hfail k hk
        have hsymmem : sym ∈ stableSortBy strLe (dedupKeepFirst (asset_map.map Prod.snd)) := by
          rw [mem_stableSortBy, mem_dedupKeepFirst]
          exact List.mem_map_of_mem Prod.snd hm
        have hsymnd : (stableSortBy strLe (dedupKeepFirst (asset_map.map Prod.snd))).Nodup :=
          ((stableSortBy_perm strLe _).nodup_iff).mpr (nodup_dedupKeepFirst _)
        have hcache : (ReturnFmp.fetch_loop fetch
            (stableSortBy strLe (dedupKeepFirst (asset_map.map Prod.snd)))).1.lookup sym =
            some (ReturnFmp.cache_entry (fetch sym)) := by
          rw [ReturnFmp.fetch_loop_cache]
          exact lookup_map_self _ _ hsymnd sym hsymmem
        rw [ReturnFmp.item_for, hcache]
        rcases hfail with hf | hf <;> rw [hf] <;>
          simp [lookup_null_returns k hk]
  · intro asset_map fetchKr hnd
    constructor
    · simp [ReturnKr.run_update_return_kr]
    · intro aid t hm
      refine ⟨⟨t, ReturnKr.compute_returns_for_ticker (fetchKr t)⟩, ?_, rfl, ?_, ?_⟩
      · rw [ReturnKr.run_update_return_kr]
        exact lookup_map_pairs asset_map _ hnd aid t hm
      · intro k hk
        rw [ReturnKr.compute_returns_for_ticker.eq_def]
        rcases fetchKr t with _ | closes
        · simp [lookup_null_returns k hk]
        · by_cases h : closes = []
          · simp [h, lookup_null_returns k hk]
          · simpa [h] using lookup_series_isSome closes k hk
      · intro hfail k hk
        rcases hfail with hf | hf <;>
          simp [ReturnKr.compute_returns_for_ticker, hf, lookup_null_returns k hk]

/-- Witness for C10 at a one-asset mapping whose fetch fails. -/
theorem C10_returns_items_cover_inputs_witness :
    ((([("A_001", "AAA")] : List (String × String)).map Prod.fst).Nodup) ∧
    ((ReturnFmp.run_update_return_fmp [("A_001", "AAA")]
        (fun _ => ReturnFmp.FetchedSeries.failed "NOT_FOUND")).1.map Prod.fst =
      ([("A_001", "AAA")] : List (String × String)).map Prod.fst) :=
  ⟨by decide,
   (C10_returns_items_cover_inputs.1 [("A_001", "AAA")]
     (fun _ => ReturnFmp.FetchedSeries.failed "NOT_FOUND") (by decide)).1⟩

/-! ## C6 / C8: the valuation fetcher mains

`update_valuation_fmp.py` and `update_valuation_kr.py` count, while
building `items`, the records with a "meaningful" value (one of close /
marketCap / pe present and non-zero) and abort with `SystemExit` — before
any write — when the count is zero.  The market-data source is an input:
a quote per symbol for FMP, the `cap_df` / `fun_df` tables for KR. -/

/-- `x not in (None, 0, 0.0)` for an optional rational. -/
def nz_q (x : Option ℚ) : Bool :=
  match x with
  | some v => decide (v ≠ 0)
  | none => false

/-- `x not in (None, 0)` for an optional integer. -/
def nz_z (x : Option ℤ) : Bool :=
  match x with
  | some v => decide (v ≠ 0)
  | none => false

namespace ValuationFmp

/-- A 200-response quote after the script's numeric coercions:
`to_float_or_none(q.get("price"))`, `to_int_or_none(q.get("marketCap"))`,
and `to_float_or_none(q.get("pe"))` when present (`update_valuation_fmp.py`
l. 266-269). -/
structure Quote where
  price : Option ℚ
  marketCap : Option ℤ
  pe : Option ℚ

/-- Outcome of `fetch_quote_single` for one symbol: a parsed quote, or a
failure with its reason tag (402/429/401/403/404/HTTP_OTHER/BAD_JSON). -/
inductive FetchQuote where
  | ok (q : Quote)
  | err (tag : String)

/-- `normalize_symbol` (`update_valuation_fmp.py` l. 91-103): strip,
upper-case, drop one trailing `'.'`. -/
def normalize_symbol (sym : String) : String :=
  let s := pyUpper (pyStrip sym)
  if pyEndsWith s "." then ⟨s.data.dropLast⟩ else s

/-- The preset keys of the `skipped` record (`update_valuation_fmp.py`
l. 230-239). -/
def SKIP_INIT : List (String × List String) :=
  [("PAYMENT_REQUIRED", []), ("INVALID_SYMBOL", []), ("RATE_LIMIT", []),
   ("UNAUTHORIZED", []), ("FORBIDDEN", []), ("NOT_FOUND", []),
   ("HTTP_OTHER", []), ("BAD_JSON", [])]

/-- One `items` entry (`update_valuation_fmp.py` l. 274-279). -/
structure ValItem where
  ticker : String
  close : Option ℚ
  marketCap : Option ℤ
  pe_ttm : Option ℚ

/-- The "meaningful value" test applied per fetched record
(`update_valuation_fmp.py` l. 271-272). -/
def meaningful_quote (q : Quote) : Bool :=
  nz_q q.price || nz_z q.marketCap || nz_q q.pe

/-- One iteration of the fetch loop (`update_valuation_fmp.py`
l. 248-282): accumulate `(items, skipped, nonzero_count)`. -/
def val_step (fetch : String → FetchQuote)
    (acc : List (String × ValItem) × List (String × List String) × Nat)
    (p : String × String) :
    List (String × ValItem) × List (String × List String) × Nat :=
  let sym := normalize_symbol p.2
  if sym = "" then (acc.1, ReturnFmp.add_skip acc.2.1 "INVALID_SYMBOL" p.2, acc.2.2)
  else
    match fetch sym with
    | .err tag => (acc.1, ReturnFmp.add_skip acc.2.1 tag sym, acc.2.2)
    | .ok q =>
      (acc.1 ++ [(p.1, ⟨sym, q.price, q.marketCap, q.pe⟩)], acc.2.1,
       acc.2.2 + (if meaningful_quote q then 1 else 0))

/-- `main` of `update_valuation_fmp.py` (l. 216-302) as a function of the
SSOT mapping and the quote source: `Except.error` models `SystemExit`
before any write; `Except.ok` carries the written `items` and `skipped`.
(The `asOf` sentinel probing and the empty-`dict` quote corner are out of
scope of the claims and omitted.) -/
def run_update_valuation_fmp (assets : List (String × String))
    (fetch : String → FetchQuote) :
    Except String (List (String × ValItem) × List (String × List String)) :=
  if assets = [] then
    Except.error "US assets not found in SSOT (country=US & ticker required)"
  else if (assets.foldl (val_step fetch) ([], SKIP_INIT, 0)).2.2 = 0 then
    Except.error "FMP valuation fetch returned no meaningful values. Failing workflow."
  else
    Except.ok ((assets.foldl (val_step fetch) ([], SKIP_INIT, 0)).1,
      (assets.foldl (val_step fetch) ([], SKIP_INIT, 0)).2.1)

/-- The items entry `main` produces for one `(assetId, raw_symbol)` pair,
or `none` when the pair is skipped. -/
def item_of (fetch : String → FetchQuote) (p : String × String) :
    Option (String × ValItem) :=
  let sym := normalize_symbol p.2
  if sym = "" then none
  else
    match fetch sym with
    | .err _ => none
    | .ok q => some (p.1, ⟨sym, q.price, q.marketCap, q.pe⟩)

/-- Whether a pair contributes to `nonzero_count`: its symbol is valid,
its fetch succeeded and the quote is meaningful. -/
def ok_meaningful (fetch : String → FetchQuote) (p : String × String) : Bool :=
  if normalize_symbol p.2 = "" then false
  else
    match fetch (normalize_symbol p.2) with
    | .err _ => false
    | .ok q => meaningful_quote q

theorem val_fold_items (fetch : String → FetchQuote) (assets : List (String × String)) :
    ∀ acc, (assets.foldl (val_step fetch) acc).1 =
      acc.1 ++ assets.filterMap (item_of fetch) := by
  induction assets with
  | nil => intro acc; simp
  | cons p ps ih =>
    intro acc
    rw [List.foldl_cons, List.filterMap_cons]
    by_cases hsym : normalize_symbol p.2 = ""
    · rw [show val_step fetch acc p =
          (acc.1, ReturnFmp.add_skip acc.2.1 "INVALID_SYMBOL" p.2, acc.2.2) by
        rw [val_step]; rw [if_pos hsym]]
      rw [show item_of fetch p = none by rw [item_of]; rw [if_pos hsym]]
      exact ih _
    · rcases hf : fetch (normalize_symbol p.2) with q | tag
      · rw [show val_step fetch acc p =
            (acc.1 ++ [(p.1, ⟨normalize_symbol p.2, q.price, q.marketCap, q.pe⟩)],
             acc.2.1, acc.2.2 + (if meaningful_quote q then 1 else 0)) by
          rw [val_step]; rw [if_neg hsym, hf]]
        rw [show item_of fetch p =
            some (p.1, ⟨normalize_symbol p.2, q.price, q.marketCap, q.pe⟩) by
          rw [item_of]; rw [if_neg hsym, hf]]
        rw [ih _]
        simp
      · rw [show val_step fetch acc p =
            (acc.1, ReturnFmp.add_skip acc.2.1 tag (normalize_symbol p.2), acc.2.2) by
          rw [val_step]; rw [if_neg hsym, hf]]
        rw [show item_of fetch p = none by rw [item_of]; rw [if_neg hsym, hf]]
        exact ih _

theorem val_fold_count (fetch : String → FetchQuote) (assets : List (String × String)) :
    ∀ acc, (assets.foldl (val_step fetch) acc).2.2 =
      acc.2.2 + assets.countP (ok_meaningful fetch) := by
  induction assets with
  | nil => intro acc; simp
  | cons p ps ih =>
    intro acc
    rw [List.foldl_cons, List.countP_cons]
    by_cases hsym : normalize_symbol p.2 = ""
    · rw [show val_step fetch acc p =
          (acc.1, ReturnFmp.add_skip acc.2.1 "INVALID_SYMBOL" p.2, acc.2.2) by
        rw [val_step]; rw [if_pos hsym]]
      rw [show ok_meaningful fetch p = false by rw [ok_meaningful]; rw [if_pos hsym]]
      rw [ih _]
      simp
    · rcases hf : fetch (normalize_symbol p.2) with q | tag
      · rw [show val_step fetch acc p =
            (acc.1 ++ [(p.1, ⟨normalize_symbol p.2, q.price, q.marketCap, q.pe⟩)],
             acc.2.1, acc.2.2 + (if meaningful_quote q then 1 else 0)) by
          rw [val_step]; rw [if_neg hsym, hf]]
        rw [show ok_meaningful fetch p = meaningful_quote q by
          rw [ok_meaningful]; rw [if_neg hsym, hf]]
        rw [ih _]
        by_cases hm : meaningful_quote q = true <;> simp [hm] <;> omega
      · rw [show val_step fetch acc p =
            (acc.1, ReturnFmp.add_skip acc.2.1 tag (normalize_symbol p.2), acc.2.2) by
          rw [val_step]; rw [if_neg hsym, hf]]
        rw [show ok_meaningful fetch p = false by rw [ok_meaningful]; rw [if_neg hsym, hf]]
        rw [ih _]
        simp

end ValuationFmp

namespace ValuationKr

/-- One `items` entry (`update_valuation_kr.py` l. 174-179): KR closes and
market caps are coerced with `int(...)`. -/
structure KrValItem where
  ticker : String
  close : Option ℤ
  marketCap : Option ℤ
  pe_ttm : Option ℚ

/-- The `(close, marketCap, pe)` the script reads for one ticker from the
`cap_df` / `fun_df` tables (`update_valuation_kr.py` l. 145-169): `None`s
when the ticker is not in a table's index. -/
def kr_fields (cap : String → Option (Option ℤ × Option ℤ))
    (fund : String → Option (Option ℚ)) (t : String) :
    Option ℤ × Option ℤ × Option ℚ :=
  ((cap t).bind Prod.fst, (cap t).bind Prod.snd,
   (fund t).bind id)

/-- The "meaningful value" test (`update_valuation_kr.py` l. 171). -/
def kr_meaningful_at (cap : String → Option (Option ℤ × Option ℤ))
    (fund : String → Option (Option ℚ)) (t : String) : Bool :=
  nz_z (kr_fields cap fund t).1 || nz_z (kr_fields cap fund t).2.1 ||
    nz_q (kr_fields cap fund t).2.2

/-- One iteration of the loop (`update_valuation_kr.py` l. 145-179). -/
def kr_step (cap : String → Option (Option ℤ × Option ℤ))
    (fund : String → Option (Option ℚ))
    (acc : List (String × KrValItem) × Nat) (p : String × String) :
    List (String × KrValItem) × Nat :=
  (acc.1 ++ [(p.1, ⟨p.2, (kr_fields cap fund p.2).1, (kr_fields cap fund p.2).2.1,
     (kr_fields cap fund p.2).2.2⟩)],
   acc.2 + (if kr_meaningful_at cap fund p.2 then 1 else 0))

/-- `main` of `update_valuation_kr.py` (l. 125-199) as a function of the
SSOT mapping and the two pykrx tables: `Except.error` models `SystemExit`
before any write; `Except.ok` carries the written `items`. -/
def run_update_valuation_kr (assets : List (String × String))
    (cap : String → Option (Option ℤ × Option ℤ))
    (fund : String → Option (Option ℚ)) :
    Except String (List (String × KrValItem)) :=
  if assets = [] then
    Except.error "KR assets not found in SSOT (country=KR & ticker required)"
  else if (assets.foldl (kr_step cap fund) ([], 0)).2 = 0 then
    Except.error "KR valuation fetch returned no meaningful values. Failing workflow."
  else Except.ok (assets.foldl (kr_step cap fund) ([], 0)).1

theorem kr_fold_count (cap : String → Option (Option ℤ × Option ℤ))
    (fund : String → Option (Option ℚ)) (assets : List (String × String)) :
    ∀ acc, (assets.foldl (kr_step cap fund) acc).2 =
      acc.2 + assets.countP (fun p => kr_meaningful_at cap fund p.2) := by
  induction assets with
  | nil => intro acc; simp
  | cons p ps ih =>
    intro acc
    rw [List.foldl_cons, List.countP_cons, ih _]
    by_cases hm : kr_meaningful_at cap fund p.2 = true <;>
      simp [kr_step, hm] <;> omega

end ValuationKr

/-- C6. For each valuation fetcher run, with the meaningful-value
predicate "one of close / marketCap / pe present and non-zero": the run
writes its output cache (`Except.ok`) iff at least one fetched record
satisfies the predicate; when every fetched record fails it, the run is
`Except.error` — `SystemExit` with no write. -/
theorem C6_meaningful_value_gate :
    (∀ (assets : List (String × String)) (fetch : String → ValuationFmp.FetchQuote),
      assets ≠ [] →
      ((∃ payload, ValuationFmp.run_update_valuation_fmp assets fetch =
          Except.ok payload) ↔
        ∃ p ∈ assets, ValuationFmp.ok_meaningful fetch p = true))
    ∧ (∀ (assets : List (String × String))
        (cap : String → Option (Option ℤ × Option ℤ))
        (fund : String → Option (Option ℚ)),
      assets ≠ [] →
      ((∃ items, ValuationKr.run_update_valuation_kr assets cap fund =
          Except.ok items) ↔
        ∃ p ∈ assets, ValuationKr.kr_meaningful_at cap fund p.2 = true)) := by
  constructor
  · intro assets fetch hne
    rw [ValuationFmp.run_update_valuation_fmp, if_neg hne]
    rw [show (assets.foldl (ValuationFmp.val_step fetch)
        ([], ValuationFmp.SKIP_INIT, 0)).2.2 =
      assets.countP (ValuationFmp.ok_meaningful fetch) by
        rw [ValuationFmp.val_fold_count]; simp]
    by_cases hc : assets.countP (ValuationFmp.ok_meaningful fetch) = 0
    · rw [if_pos hc]
      constructor
      · rintro ⟨payload, hp⟩; cases hp
      · rintro ⟨p, hp, hm⟩
        exact absurd hm (by simpa using (List.countP_eq_zero.mp hc) p hp)
    · rw [if_neg hc]
      constructor
      · intro _
        obtain ⟨p, hp, hm⟩ := List.countP_pos.mp (Nat.pos_of_ne_zero hc)
        exact ⟨p, hp, hm⟩
      · intro _; exact ⟨_, rfl⟩
  · intro assets cap fund hne
    rw [ValuationKr.run_update_valuation_kr, if_neg hne]
    rw [show (assets.foldl (ValuationKr.kr_step cap fund) ([], 0)).2 =
      assets.countP (fun p => ValuationKr.kr_meaningful_at cap fund p.2) by
        rw [ValuationKr.kr_fold_count]; simp]
    by_cases hc : assets.countP (fun p => ValuationKr.kr_meaningful_at cap fund p.2) = 0
    · rw [if_pos hc]
      constructor
      · rintro ⟨items, hp⟩; cases hp
      · rintro ⟨p, hp, hm⟩
        exact absurd hm (by simpa using (List.countP_eq_zero.mp hc) p hp)
    · rw [if_neg hc]
      constructor
      · intro _
        obtain ⟨p, hp, hm⟩ := List.countP_pos.mp (Nat.pos_of_ne_zero hc)
        exact ⟨p, hp, hm⟩
      · intro _; exact ⟨_, rfl⟩

/-- Witness for C6: a single-asset run whose sole quote has a non-zero
close is written; the same run with an all-`None` quote errors out. -/
theorem C6_meaningful_value_gate_witness :
    (([("A_001", "AAPL")] : List (String × String)) ≠ []) ∧
    ((∃ payload, ValuationFmp.run_update_valuation_fmp [("A_001", "AAPL")]
        (fun _ => ValuationFmp.FetchQuote.ok ⟨some 1, none, none⟩) =
        Except.ok payload) ↔
      ∃ p ∈ ([("A_001", "AAPL")] : List (String × String)),
        ValuationFmp.ok_meaningful
          (fun _ => ValuationFmp.FetchQuote.ok ⟨some 1, none, none⟩) p = true) :=
  ⟨List.cons_ne_nil _ _,
   C6_meaningful_value_gate.1 [("A_001", "AAPL")]
     (fun _ => ValuationFmp.FetchQuote.ok ⟨some 1, none, none⟩)
     (List.cons_ne_nil _ _)⟩

/-! ## C8: recoverable per-item failure handling -/

theorem lookup_filterMap_not_mem {β : Type _} (l : List (String × String))
    (f : String × String → Option (String × β))
    (hf : ∀ p r, f p = some r → r.1 = p.1) (aid : String)
    (h : aid ∉ l.map Prod.fst) : (l.filterMap f).lookup aid = none := by
  induction l with
  | nil => rfl
  | cons hd tl ih =>
    have hne : aid ≠ hd.1 := by
      intro he
      exact h (by rw [List.map_cons]; exact he ▸ List.mem_cons_self _ _)
    have htl : aid ∉ tl.map Prod.fst := by
      intro he
      exact h (by rw [List.map_cons]; exact List.mem_cons_of_mem _ he)
    rw [List.filterMap_cons]
    rcases hfh : f hd with _ | r
    · exact ih htl
    · have : r.1 = hd.1 := hf hd r hfh
      rcases r with ⟨rk, rv⟩
      rw [show rk = hd.1 from this, lookup_cons_diff _ _ hne]
      exact ih htl

theorem lookup_filterMap_of_mem {β : Type _} (l : List (String × String))
    (f : String × String → Option (String × β))
    (hf : ∀ p r, f p = some r → r.1 = p.1)
    (hnd : (l.map Prod.fst).Nodup) (aid s : String) (hm : (aid, s) ∈ l) :
    (l.filterMap f).lookup aid =
      (f (aid, s)).bind (fun r => some r.2) := by
  induction l with
  | nil => cases hm
  | cons hd tl ih =>
    rw [List.map_cons, List.nodup_cons] at hnd
    rcases List.mem_cons.mp hm with rfl | hm'
    · rw [List.filterMap_cons]
      rcases hfh : f (aid, s) with _ | r
      · rw [Option.bind]
        exact lookup_filterMap_not_mem tl f hf aid hnd.1
      · have : r.1 = aid := hf _ r hfh
        rcases r with ⟨rk, rv⟩
        rw [show rk = aid from this, lookup_cons_same]
        rfl
    · have hne : aid ≠ hd.1 := by
        rintro rfl
        exact hnd.1 (List.mem_map.mpr ⟨(hd.1, s), hm', rfl⟩)
      rw [List.filterMap_cons]
      rcases hfh : f hd with _ | r
      · exact ih hnd.2 hm'
      · have : r.1 = hd.1 := hf hd r hfh
        rcases r with ⟨rk, rv⟩
        rw [show rk = hd.1 from this, lookup_cons_diff _ _ hne]
        exact ih hnd.2 hm'

namespace ValuationFmp

theorem item_of_key (fetch : String → FetchQuote) :
    ∀ p r, item_of fetch p = some r → r.1 = p.1 := by
  intro p r h
  rw [item_of] at h
  by_cases hsym : normalize_symbol p.2 = ""
  · rw [if_pos hsym] at h; cases h
  · rw [if_neg hsym] at h
    rcases hf : fetch (normalize_symbol p.2) with q | tag <;> rw [hf] at h
    · cases h; rfl
    · cases h

theorem val_fold_skip_mono (fetch : String → FetchQuote)
    (assets : List (String × String)) (tag sym : String) :
    ∀ acc, ReturnFmp.skip_has acc.2.1 tag sym →
      ReturnFmp.skip_has ((assets.foldl (val_step fetch) acc)).2.1 tag sym := by
  induction assets with
  | nil => intro acc h; exact h
  | cons p ps ih =>
    intro acc h
    rw [List.foldl_cons]
    refine ih _ ?_
    rw [val_step]
    by_cases hsym : normalize_symbol p.2 = ""
    · rw [if_pos hsym]
      exact ReturnFmp.add_skip_mono _ _ _ _ _ h
    · rw [if_neg hsym]
      rcases hf : fetch (normalize_symbol p.2) with q | t
      · exact h
      · exact ReturnFmp.add_skip_mono _ _ _ _ _ h

theorem val_fold_skip (fetch : String → FetchQuote)
    (assets : List (String × String)) (aid rawsym tag : String)
    (hm : (aid, rawsym) ∈ assets) (hsym : normalize_symbol rawsym ≠ "")
    (hf : fetch (normalize_symbol rawsym) = .err tag) :
    ∀ acc, ReturnFmp.skip_has ((assets.foldl (val_step fetch) acc)).2.1 tag
      (normalize_symbol rawsym) := by
  induction assets with
  | nil => cases hm
  | cons p ps ih =>
    intro acc
    rw [List.foldl_cons]
    rcases List.mem_cons.mp hm with he | hm'
    · rw [show p = (aid, rawsym) from he.symm]
      refine val_fold_skip_mono fetch ps tag (normalize_symbol rawsym) _ ?_
      rw [val_step]
      rw [if_neg hsym, hf]
      exact ReturnFmp.add_skip_same _ _ _
    · exact ih hm' _

end ValuationFmp

/-- C8 (amended). Per-item failures do not abort the runs, but how they
are recorded differs: the FMP returns builder records the failed symbol
under its reason tag in `skipped` and still emits the asset's items entry
with all-null returns; the FMP valuation builder records the failure and
omits the asset from `items`, while a successfully fetched asset keeps
its entry; the KR returns builder just emits the all-null entry, with no
failure record at all in its output. -/
theorem C8_per_item_failures_amended :
    (∀ (asset_map : List (String × String)) (fetch : String → ReturnFmp.FetchedSeries)
       (aid sym tag : String), (asset_map.map Prod.fst).Nodup →
       (aid, sym) ∈ asset_map → fetch sym = .failed tag →
       ReturnFmp.skip_has (ReturnFmp.run_update_return_fmp asset_map fetch).2 tag sym
       ∧ (ReturnFmp.run_update_return_fmp asset_map fetch).1.lookup aid =
           some ⟨sym, null_returns⟩)
    ∧ (∀ (assets : List (String × String)) (fetch : String → ValuationFmp.FetchQuote)
       (aid rawsym tag : String), (assets.map Prod.fst).Nodup →
       (aid, rawsym) ∈ assets → ValuationFmp.normalize_symbol rawsym ≠ "" →
       fetch (ValuationFmp.normalize_symbol rawsym) = .err tag →
       ReturnFmp.skip_has
         ((assets.foldl (ValuationFmp.val_step fetch)
           ([], ValuationFmp.SKIP_INIT, 0))).2.1 tag
         (ValuationFmp.normalize_symbol rawsym)
       ∧ ((assets.foldl (ValuationFmp.val_step fetch)
           ([], ValuationFmp.SKIP_INIT, 0))).1.lookup aid = none)
    ∧ (∀ (assets : List (String × String)) (fetch : String → ValuationFmp.FetchQuote)
       (aid rawsym : String) (q : ValuationFmp.Quote), (assets.map Prod.fst).Nodup →
       (aid, rawsym) ∈ assets → ValuationFmp.normalize_symbol rawsym ≠ "" →
       fetch (ValuationFmp.normalize_symbol rawsym) = .ok q →
       ((assets.foldl (ValuationFmp.val_step fetch)
           ([], ValuationFmp.SKIP_INIT, 0))).1.lookup aid =
         some ⟨ValuationFmp.normalize_symbol rawsym, q.price, q.marketCap, q.pe⟩)
    ∧ (∀ (asset_map : List (String × String)) (fetchKr : String → Option PriceSeries)
       (aid t : String), (asset_map.map Prod.fst).Nodup →
       (aid, t) ∈ asset_map → fetchKr t = none →
       (ReturnKr.run_update_return_kr asset_map fetchKr).lookup aid =
         some ⟨t, null_returns⟩) := by
  refine ⟨?_, ?_, ?_, ?_⟩
  · intro asset_map fetch aid sym tag hnd hm hf
    have hsymmem : sym ∈ stableSortBy strLe (dedupKeepFirst (asset_map.map Prod.snd)) := by
      rw [mem_stableSortBy, mem_dedupKeepFirst]
      exact List.mem_map_of_mem Prod.snd hm
    have hsymnd : (stableSortBy strLe (dedupKeepFirst (asset_map.map Prod.snd))).Nodup :=
      ((stableSortBy_perm strLe _).nodup_iff).mpr (nodup_dedupKeepFirst _)
    constructor
    · rw [ReturnFmp.run_update_return_fmp]
      exact ReturnFmp.fetch_loop_skip fetch _ sym tag hsymmem hf
    · have hcache : (ReturnFmp.fetch_loop fetch
          (stableSortBy strLe (dedupKeepFirst (asset_map.map Prod.snd)))).1.lookup sym =
          some (ReturnFmp.cache_entry (fetch sym)) := by
        rw [ReturnFmp.fetch_loop_cache]
        exact lookup_map_self _ _ hsymnd sym hsymmem
      rw [ReturnFmp.run_update_return_fmp]
      rw [lookup_map_pairs asset_map _ hnd aid sym hm]
      rw [ReturnFmp.item_for, hcache, hf]
      rfl
  · intro assets fetch aid rawsym tag hnd hm hsym hf
    refine ⟨ValuationFmp.val_fold_skip fetch assets aid rawsym tag hm hsym hf _, ?_⟩
    rw [ValuationFmp.val_fold_items]
    have : ValuationFmp.item_of fetch (aid, rawsym) = none := by
      rw [ValuationFmp.item_of]
      rw [if_neg hsym, hf]
    rw [show (([] : List (String × ValuationFmp.ValItem)), ValuationFmp.SKIP_INIT,
        (0 : Nat)).1 ++ assets.filterMap (ValuationFmp.item_of fetch) =
        assets.filterMap (ValuationFmp.item_of fetch) by simp]
    rw [lookup_filterMap_of_mem assets _ (ValuationFmp.item_of_key fetch) hnd aid rawsym hm]
    rw [this]
    rfl
  · intro assets fetch aid rawsym q hnd hm hsym hf
    rw [ValuationFmp.val_fold_items]
    have : ValuationFmp.item_of fetch (aid, rawsym) =
        some (aid, ⟨ValuationFmp.normalize_symbol rawsym, q.price, q.marketCap, q.pe⟩) := by
      rw [ValuationFmp.item_of]
      rw [if_neg hsym, hf]
    rw [show (([] : List (String × ValuationFmp.ValItem)), ValuationFmp.SKIP_INIT,
        (0 : Nat)).1 ++ assets.filterMap (ValuationFmp.item_of fetch) =
        assets.filterMap (ValuationFmp.item_of fetch) by simp]
    rw [lookup_filterMap_of_mem assets _ (ValuationFmp.item_of_key fetch) hnd aid rawsym hm]
    rw [this]
    rfl
  · intro asset_map fetchKr aid t hnd hm hf
    rw [ReturnKr.run_update_return_kr]
    rw [lookup_map_pairs asset_map _ hnd aid t hm]
    rw [ReturnKr.compute_returns_for_ticker.eq_def, hf]

/-- Witness for C8 (amended) at a one-asset run whose fetch fails with
`NOT_FOUND`. -/
theorem C8_per_item_failures_amended_witness :
    ((([("A_001", "AAA")] : List (String × String)).map Prod.fst).Nodup) ∧
    (ReturnFmp.skip_has
      (ReturnFmp.run_update_return_fmp [("A_001", "AAA")]
        (fun _ => ReturnFmp.FetchedSeries.failed "NOT_FOUND")).2 "NOT_FOUND" "AAA"
     ∧ (ReturnFmp.run_update_return_fmp [("A_001", "AAA")]
        (fun _ => ReturnFmp.FetchedSeries.failed "NOT_FOUND")).1.lookup "A_001" =
        some ⟨"AAA", null_returns⟩) :=
  ⟨by decide,
   C8_per_item_failures_amended.1 [("A_001", "AAA")]
     (fun _ => ReturnFmp.FetchedSeries.failed "NOT_FOUND") "A_001" "AAA" "NOT_FOUND"
     (by decide) (by decide) rfl⟩

/-- Counterexample to C8 as stated: a failed symbol's asset is not
omitted from the FMP returns cache (its entry is emitted with all-null
returns), and the KR returns builder's whole output for a failing ticker
is just that null entry — no reason tag is recorded anywhere in it. -/
theorem C8_counterexample :
    ¬ ((ReturnFmp.run_update_return_fmp [("A_001", "AAA")]
        (fun _ => ReturnFmp.FetchedSeries.failed "NOT_FOUND")).1.lookup "A_001" = none)
    ∧ (ReturnFmp.run_update_return_fmp [("A_001", "AAA")]
        (fun _ => ReturnFmp.FetchedSeries.failed "NOT_FOUND")).1.lookup "A_001" =
        some ⟨"AAA", null_returns⟩
    ∧ (ReturnKr.run_update_return_kr [("A_088", "005930")] (fun _ => none) =
        [("A_088", ⟨"005930", null_returns⟩)]) := by
  refine ⟨by decide, by decide, by decide⟩

/-! ## C7: file-write patterns

Each `write_json` body is transcribed into a trace of filesystem effects;
"atomic" means the final path is never the destination of a direct write
and receives its content through a rename. -/

/-- A filesystem effect a write helper performs, in order. -/
inductive FsAction where
  | mkdirParent (path : String)
  | writeFile (path : String) (content : String)
  | rename (src dst : String)
deriving DecidableEq

/-- `write_json` of `build_freeze.py` (l. 68-76): mkdir, write
`<path>.tmp`, `tmp.replace(path)`.  (`with_suffix(suffix + ".tmp")`
appends `.tmp` for the `.json` paths this script writes.) -/
def write_json_build_freeze (path content : String) : List FsAction :=
  [.mkdirParent path, .writeFile (path ++ ".tmp") content,
   .rename (path ++ ".tmp") path]

/-- `write_json` of `update_return_kr.py` (l. 56-58): mkdir, then
`path.write_text(...)` directly. -/
def write_json_return_kr (path content : String) : List FsAction :=
  [.mkdirParent path, .writeFile path content]

/-- `write_json` of `update_valuation_fmp.py` (l. 50-52): mkdir, then
`path.write_text(...)` directly (same shape in `update_valuation_kr.py`
l. 18-20 and `update_return_fmp.py` l. 77-79). -/
def write_json_valuation_fmp (path content : String) : List FsAction :=
  [.mkdirParent path, .writeFile path content]

/-- The write-to-temporary-then-rename discipline for `target`: no direct
write to `target`, and `target` is produced by a rename. -/
def uses_atomic_write (target : String) (tr : List FsAction) : Bool :=
  (tr.all (fun a =>
    match a with
    | .writeFile p _ => p ≠ target
    | _ => true))
  && (tr.any (fun a =>
    match a with
    | .rename _ dst => dst = target
    | _ => false))

theorem tmp_path_ne (p : String) : ¬ (p ++ ".tmp" = p) := by
  intro h
  have hlen := congrArg String.length h
  rw [String.length_append] at hlen
  have : (".tmp" : String).length = 4 := by decide
  omega

/-- C7 (amended). `build_freeze.py`'s `write_json` follows the
write-tmp-then-rename pattern for every path and content, but the cache
builders' `write_json` helpers write the output path directly, so the
pattern does not cover every JSON write of these scripts. -/
theorem C7_atomic_write_amended :
    (∀ path content, uses_atomic_write path (write_json_build_freeze path content) = true)
    ∧ (∀ path content, uses_atomic_write path (write_json_return_kr path content) = false)
    ∧ (∀ path content,
        uses_atomic_write path (write_json_valuation_fmp path content) = false) := by
  refine ⟨?_, ?_, ?_⟩
  · intro path content
    simp [uses_atomic_write, write_json_build_freeze, List.all, List.any, tmp_path_ne path]
  · intro path content
    simp [uses_atomic_write, write_json_return_kr, List.all]
  · intro path content
    simp [uses_atomic_write, write_json_valuation_fmp, List.all]

/-- Counterexample to C7 as stated: the KR returns cache write goes
directly to its output file, with no temporary and no rename. -/
theorem C7_counterexample :
    uses_atomic_write "data/cache/returns_kr.json"
      (write_json_return_kr "data/cache/returns_kr.json" "{}") = false
    ∧ (FsAction.writeFile "data/cache/returns_kr.json" "{}") ∈
        write_json_return_kr "data/cache/returns_kr.json" "{}" := by
  refine ⟨by decide, by decide⟩

/-! ## C9: the index rebuilders

`rebuild_theme_index.py` derives each entry's themeId from the filename
and sorts by the id's numeric suffix; `build_theme_index.py` prefers the
themeId stored inside the file (falling back to the filename stem) and
emits entries in filename order.  A scan is modelled as the list of
`(filename, parsed object)` pairs. -/

/-- Python `s.startswith(t)`. -/
def pyStartsWith (s t : String) : Bool := s.data.take t.data.length = t.data

/-- The fields of a theme file the index scripts read. -/
structure ThemeNodeL where
  typ : String
  name : Option String
deriving DecidableEq

/-- A parsed theme JSON as the index scripts see it (`edgesCount` stands
for `len(data.get("edges", []))`, the only use of the edges). -/
structure ThemeFileObj where
  themeId : Option String
  themeName : Option String
  nodes : List ThemeNodeL
  edgesCount : Nat
deriving DecidableEq

/-- A digit string parsed as a number (the model of `int(...)` on an
all-digits string). -/
def digitsToNat (l : List Char) : Nat :=
  l.foldl (fun n c => n * 10 + (c.toNat - 48)) 0

namespace RebuildIndex

/-- `norm_theme_id_from_filename` (`rebuild_theme_index.py` l. 53-57):
`^(T_\d{3})\.json$`, case-insensitive, with the captured id upper-cased. -/
def norm_theme_id_from_filename (fname : String) : Option String :=
  let s := pyLower fname
  if s.data.length = 10 ∧ s.data.take 2 = ['t', '_']
      ∧ ((s.data.drop 2).take 3).all Char.isDigit
      ∧ s.data.drop 5 = ['.', 'j', 's', 'o', 'n']
  then some (pyUpper ⟨fname.data.take 5⟩)
  else none

/-- The nodes scan of `pick_theme_name` (`rebuild_theme_index.py`
l. 41-50): the first THEME-typed node with a non-blank name. -/
def pick_theme_name_from_nodes (nodes : List ThemeNodeL) (fallback : String) : String :=
  match nodes.findSome? (fun n =>
    if pyUpper n.typ = "THEME" then
      match n.name with
      | some nm => if pyStrip nm = "" then none else some (pyStrip nm)
      | none => none
    else none) with
  | some nm => nm
  | none => fallback

/-- `pick_theme_name` (`rebuild_theme_index.py` l. 35-51). -/
def pick_theme_name (obj : ThemeFileObj) (fallback : String) : String :=
  match obj.themeName with
  | some tn => if pyStrip tn = "" then pick_theme_name_from_nodes obj.nodes fallback
               else pyStrip tn
  | none => pick_theme_name_from_nodes obj.nodes fallback

/-- The sort key (`rebuild_theme_index.py` l. 77-84):
`int(tid.split("_")[1])`, `999999` when that raises. -/
def theme_sort_key (tid : String) : Nat :=
  let after := (tid.data.dropWhile (fun c => c ≠ '_')).drop 1
  let part := after.takeWhile (fun c => c ≠ '_')
  if part ≠ [] ∧ part.all Char.isDigit then digitsToNat part else 999999

/-- `main` of `rebuild_theme_index.py` (l. 59-89): glob `T_*.json` in
name order, keep the files matching the themeId pattern, pair the
filename-derived id with the picked display name, and sort by the
numeric suffix.  Returns the `(themeId, themeName)` list written to
`index.json`. -/
def rebuild_theme_index (files : List (String × ThemeFileObj)) :
    List (String × String) :=
  stableSortBy (fun a b => theme_sort_key a.1 ≤ theme_sort_key b.1)
    (((stableSortBy (fun a b => strLe a.1 b.1) files).filter
        (fun p => pyStartsWith p.1 "T_" && pyEndsWith p.1 ".json")).filterMap (fun p =>
      (norm_theme_id_from_filename p.1).map
        (fun tid => (tid, pick_theme_name p.2 tid))))

end RebuildIndex

namespace BuildIndex

/-- `os.path.splitext(...)[0]` of a basename. -/
def py_splitext_stem (s : String) : String :=
  if s.data.contains '.' then
    ⟨((s.data.reverse.dropWhile (fun c => c ≠ '.')).drop 1).reverse⟩
  else s

/-- One emitted row of `build_theme_index.py` (l. 22-29); `source` and
`updatedAt` are constants and omitted. -/
structure IndexEntry where
  themeId : String
  themeName : String
  nodeCount : Nat
  edgeCount : Nat
deriving DecidableEq

/-- The module-level scan of `build_theme_index.py` (l. 11-29): files in
name order; `theme_id = data.get("themeId") or stem` (so a non-empty
stored themeId wins over the filename), `theme_name =
data.get("themeName", theme_id)`. -/
def build_theme_index (files : List (String × ThemeFileObj)) : List IndexEntry :=
  ((stableSortBy (fun a b => strLe a.1 b.1) files).filter
    (fun p => pyStartsWith p.1 "T_" && pyEndsWith p.1 ".json")).map (fun p =>
    let stem := py_splitext_stem p.1
    let tid := match p.2.themeId with
      | some t => if t = "" then stem else t
      | none => stem
    let tname := match p.2.themeName with
      | some tn => tn
      | none => tid
    ⟨tid, tname, p.2.nodes.length, p.2.edgesCount⟩)

end BuildIndex

/-! ### Sortedness of the insertion sort -/

theorem mem_insertSorted (le : α → α → Bool) (x : α) (l : List α) (a : α) :
    a ∈ insertSorted le x l ↔ a = x ∨ a ∈ l := by
  rw [(insertSorted_perm le x l).mem_iff]
  simp

theorem pairwise_insertSorted (le : α → α → Bool)
    (htrans : ∀ a b c, le a b = true → le b c = true → le a c = true)
    (htot : ∀ a b, le a b = true ∨ le b a = true) (x : α) (l : List α)
    (hl : l.Pairwise (fun a b => le a b = true)) :
    (insertSorted le x l).Pairwise (fun a b => le a b = true) := by
  induction l with
  | nil => simp [insertSorted]
  | cons y ys ih =>
    rw [List.pairwise_cons] at hl
    rw [insertSorted]
    by_cases hle : le y x = true
    · rw [if_pos hle]
      rw [List.pairwise_cons]
      constructor
      · intro a ha
        rcases (mem_insertSorted le x ys a).mp ha with rfl | ha'
        · exact hle
        · exact hl.1 a ha'
      · exact ih hl.2
    · rw [if_neg hle]
      have hxy : le x y = true := by
        rcases htot x y with h | h
        · exact h
        · exact absurd h hle
      rw [List.pairwise_cons]
      constructor
      · intro a ha
        rcases List.mem_cons.mp ha with rfl | ha'
        · exact hxy
        · exact htrans x y a hxy (hl.1 a ha')
      · exact List.pairwise_cons.mpr hl

theorem pairwise_stableSortBy (le : α → α → Bool)
    (htrans : ∀ a b c, le a b = true → le b c = true → le a c = true)
    (htot : ∀ a b, le a b = true ∨ le b a = true) (l : List α) :
    (stableSortBy le l).Pairwise (fun a b => le a b = true) := by
  rw [stableSortBy]
  have : ∀ acc : List α, acc.Pairwise (fun a b => le a b = true) →
      (l.foldl (fun a x => insertSorted le x a) acc).Pairwise
        (fun a b => le a b = true) := by
    induction l with
    | nil => intro acc h; exact h
    | cons y ys ih =>
      intro acc h
      rw [List.foldl_cons]
      exact ih _ (pairwise_insertSorted le htrans htot y acc h)
  exact this [] List.Pairwise.nil

/-! ### Map-compatibility of the sort (for themeId-independence) -/

theorem insertSorted_map {β : Type _} (f : α → β) (le : α → α → Bool)
    (leB : β → β → Bool) (hc : ∀ a b, leB (f a) (f b) = le a b) (x : α) :
    ∀ l : List α, insertSorted leB (f x) (l.map f) = (insertSorted le x l).map f := by
  intro l
  induction l with
  | nil => rfl
  | cons y ys ih =>
    rw [List.map_cons, insertSorted, insertSorted, hc]
    by_cases h : le y x = true
    · rw [if_pos h, if_pos h, List.map_cons, ih]
    · rw [if_neg h, if_neg h]
      rfl

theorem stableSortBy_map {β : Type _} (f : α → β) (le : α → α → Bool)
    (leB : β → β → Bool) (hc : ∀ a b, leB (f a) (f b) = le a b) (l : List α) :
    stableSortBy leB (l.map f) = (stableSortBy le l).map f := by
  rw [stableSortBy, stableSortBy]
  have : ∀ acc : List α,
      (l.map f).foldl (fun a x => insertSorted leB x a) (acc.map f) =
        (l.foldl (fun a x => insertSorted le x a) acc).map f := by
    induction l with
    | nil => intro acc; rfl
    | cons y ys ih =>
      intro acc
      rw [List.map_cons, List.foldl_cons, List.foldl_cons,
        insertSorted_map f le leB hc y acc]
      exact ih _
  simpa using this []

/-- C9 (amended). `rebuild_theme_index.py` emits only filename-derived
themeIds, sorted by numeric suffix, and its output is unchanged by any
rewrite of the themeId fields stored inside the files;
`build_theme_index.py` is the variant the counterexample refutes. -/
theorem C9_index_rebuilder_amended :
    (∀ (files : List (String × ThemeFileObj)),
      ∀ e ∈ RebuildIndex.rebuild_theme_index files,
        ∃ p ∈ files, RebuildIndex.norm_theme_id_from_filename p.1 = some e.1)
    ∧ (∀ (files : List (String × ThemeFileObj)),
      (RebuildIndex.rebuild_theme_index files).Pairwise
        (fun a b => RebuildIndex.theme_sort_key a.1 ≤ RebuildIndex.theme_sort_key b.1))
    ∧ (∀ (files : List (String × ThemeFileObj))
        (h : String × ThemeFileObj → Option String),
      RebuildIndex.rebuild_theme_index
        (files.map (fun p => (p.1, { p.2 with themeId := h p }))) =
        RebuildIndex.rebuild_theme_index files) := by
  refine ⟨?_, ?_, ?_⟩
  · intro files e he
    rw [RebuildIndex.rebuild_theme_index] at he
    rw [(stableSortBy_perm _ _).mem_iff] at he
    obtain ⟨p, hp, heq⟩ := List.mem_filterMap.mp he
    rw [List.mem_filter] at hp
    refine ⟨p, ?_, ?_⟩
    · exact ((stableSortBy_perm (fun a b => strLe a.1 b.1) files).mem_iff).mp hp.1
    · rcases hnorm : RebuildIndex.norm_theme_id_from_filename p.1 with _ | tid
      · rw [hnorm] at heq; cases heq
      · rw [hnorm] at heq
        have he2 : (tid, RebuildIndex.pick_theme_name p.2 tid) = e := by
          simpa using heq
        rw [← he2]
  · intro files
    have hp := pairwise_stableSortBy
      (fun a b : String × String =>
        decide (RebuildIndex.theme_sort_key a.1 ≤ RebuildIndex.theme_sort_key b.1))
      (fun a b c hab hbc => decide_eq_true
        (le_trans (of_decide_eq_true hab) (of_decide_eq_true hbc)))
      (fun a b => by
        rcases Nat.le_total (RebuildIndex.theme_sort_key a.1)
            (RebuildIndex.theme_sort_key b.1) with h | h
        · exact Or.inl (decide_eq_true h)
        · exact Or.inr (decide_eq_true h))
      (((stableSortBy (fun a b : String × ThemeFileObj => strLe a.1 b.1) files).filter
          (fun p => pyStartsWith p.1 "T_" && pyEndsWith p.1 ".json")).filterMap (fun p =>
        (RebuildIndex.norm_theme_id_from_filename p.1).map
          (fun tid => (tid, RebuildIndex.pick_theme_name p.2 tid))))
    exact List.Pairwise.imp (fun h => of_decide_eq_true h) hp
  · intro files h
    have hsort : stableSortBy (fun a b : String × ThemeFileObj => strLe a.1 b.1)
        (files.map (fun p => (p.1, { p.2 with themeId := h p }))) =
        (stableSortBy (fun a b : String × ThemeFileObj => strLe a.1 b.1) files).map
          (fun p => (p.1, { p.2 with themeId := h p })) :=
      stableSortBy_map _ _ _ (fun a b => rfl) files
    rw [RebuildIndex.rebuild_theme_index, RebuildIndex.rebuild_theme_index, hsort,
      List.filter_map, List.filterMap_map]
    rfl

/-- Witness for C9 (amended): the sortedness part at a two-file scan
given out of name order. -/
theorem C9_index_rebuilder_amended_witness :
    (RebuildIndex.rebuild_theme_index
      [("T_010.json", ⟨none, some "b", [], 0⟩), ("T_002.json", ⟨none, some "a", [], 0⟩)]).Pairwise
      (fun a b => RebuildIndex.theme_sort_key a.1 ≤ RebuildIndex.theme_sort_key b.1) :=
  C9_index_rebuilder_amended.2.1
    [("T_010.json", ⟨none, some "b", [], 0⟩), ("T_002.json", ⟨none, some "a", [], 0⟩)]

/-- Counterexample to C9 as stated: on a file `T_001.json` whose stored
themeId is `T_999`, the `build_theme_index.py` variant emits `T_999` —
the internal field, not the filename-derived `T_001` that
`rebuild_theme_index.py` emits. -/
theorem C9_counterexample :
    (BuildIndex.build_theme_index
        [("T_001.json", ⟨some "T_999", some "X", [], 0⟩)]).map BuildIndex.IndexEntry.themeId =
      ["T_999"]
    ∧ RebuildIndex.norm_theme_id_from_filename "T_001.json" = some "T_001"
    ∧ ("T_999" : String) ≠ "T_001"
    ∧ RebuildIndex.rebuild_theme_index [("T_001.json", ⟨some "T_999", some "X", [], 0⟩)] =
        [("T_001", "X")] := by
  refine ⟨by decide, by decide, by decide, by decide⟩

/-! ## C2: the fragment mergers

Two variants exist in the repository.
`sccripts/build_master_from_fragments.py` scans fragment directories in an
explicit priority order (sanitized first, then by descending `g` number)
and keeps the first-seen row per id; `scripts/build_master_from_fragments.py`
scans the directories in plain ascending name order and also keeps the
first-seen row.  A directory listing is a list of names; the filesystem
maps a directory name to the fragment CSV it holds (absent otherwise). -/

/-- A parsed CSV row: column name to cell text. -/
abbrev Row := List (String × String)

/-- A fragment CSV as parsed by `csv.DictReader`. -/
structure CsvFile where
  fieldnames : List String
  rows : List Row
deriving DecidableEq

namespace MasterSc

/-- `is_sanitized_dir` (`sccripts/build_master_from_fragments.py` l. 57-58). -/
def is_sanitized_dir (name : String) : Bool :=
  pyEndsWith (pyLower name) "_sanitized"

/-- `extract_g_num` (l. 61-68): the number of a `^g(\d+)(?:_SANITIZED)?$`
directory name, case-insensitively. -/
def extract_g_num (name : String) : Option Nat :=
  match (pyLower name).data with
  | 'g' :: rest =>
    let core := if rest.length ≥ 10 ∧ rest.drop (rest.length - 10) = "_sanitized".data
                then rest.take (rest.length - 10) else rest
    if core ≠ [] ∧ core.all Char.isDigit then some (digitsToNat core) else none
  | _ => none

/-- `extract_g_num(p) or -1` (l. 87): Python's `or` also turns a parsed
`0` into `-1`. -/
def g_sort_gnum (name : String) : ℤ :=
  match extract_g_num name with
  | some k => if k = 0 then -1 else (k : ℤ)
  | none => -1

/-- The sort key of `list_g_dirs` (l. 86-88): sanitized first, then
descending `g` number. -/
def g_priority_key (name : String) : ℤ × ℤ :=
  ((if is_sanitized_dir name then 0 else 1), -(g_sort_gnum name))

/-- Python tuple `<=` on the sort keys. -/
def key_le (a b : ℤ × ℤ) : Bool :=
  decide (a.1 < b.1 ∨ (a.1 = b.1 ∧ a.2 ≤ b.2))

/-- `list_g_dirs` (l. 71-91): keep the `g*` / `g*_SANITIZED` directory
names (the two glob patterns overlap, hence the set-dedup and name sort),
then sort by priority. -/
def list_g_dirs (names : List String) : List String :=
  stableSortBy (fun a b => key_le (g_priority_key a) (g_priority_key b))
    (stableSortBy (fun a b => strLe (pyLower a) (pyLower b))
      (dedupKeepFirst (names.filter (fun n => (extract_g_num n).isSome))))

/-- `merge_headers` (l. 121-131). -/
def merge_headers (base extra : List String) : List String :=
  extra.foldl (fun out h =>
    if pyStrip h = "" then out
    else if out.contains (pyStrip h) then out else out ++ [pyStrip h]) base

/-- `safe_read_csv` (l. 94-109) applied to an already-parsed file: strip
the fieldnames and every key and value. -/
def safe_read_file (f : CsvFile) : List String × List Row :=
  (f.fieldnames.map pyStrip,
   f.rows.map (fun r => r.map (fun kv => (pyStrip kv.1, pyStrip kv.2))))

/-- `(r.get(id_col) or "").strip()` (l. 166). -/
def row_id (id_col : String) (r : Row) : String :=
  pyStrip ((r.lookup id_col).getD "")

/-- The per-row winners loop of `build_one_master` (l. 164-178): skip
blank ids, keep the first-seen row per id. -/
def rows_fold (id_col : String) (rows : List Row) (w : List (String × Row)) :
    List (String × Row) :=
  rows.foldl (fun w r =>
    if row_id id_col r = "" then w
    else if (w.lookup (row_id id_col r)).isSome then w
    else w ++ [(row_id id_col r, r)]) w

/-- `build_one_master` (l. 134-200) up to the winners map: scan the
directories in the given (priority) order, merging headers and keeping
first-seen rows.  (The script then emits `winners` in a numeric-aware id
order and a report — a reordering that does not change the id → row
mapping.) -/
def build_one_master (g_dirs : List String) (fs : List (String × CsvFile))
    (id_col : String) : List String × List (String × Row) :=
  g_dirs.foldl (fun acc d =>
    match fs.lookup d with
    | none => acc
    | some f =>
      if (safe_read_file f).1 = [] ∨ (safe_read_file f).2 = [] then acc
      else (merge_headers acc.1 (safe_read_file f).1,
            rows_fold id_col (safe_read_file f).2 acc.2))
    ([id_col], [])

end MasterSc

namespace MasterS

/-- `G_FOLDER_RE` = `^g\d+$`, case-insensitive
(`scripts/build_master_from_fragments.py` l. 36). -/
def g_folder_match (name : String) : Bool :=
  match (pyLower name).data with
  | 'g' :: rest => rest ≠ [] && rest.all Char.isDigit
  | _ => false

/-- `G_SAN_RE` = `^g\d+_SANITIZED$`, case-insensitive (l. 37). -/
def g_san_match (name : String) : Bool :=
  match (pyLower name).data with
  | 'g' :: rest =>
    rest.length ≥ 11 && rest.drop (rest.length - 10) = "_sanitized".data
      && (rest.take (rest.length - 10)).all Char.isDigit
  | _ => false

/-- `list_fragment_dirs` (l. 40-50): matching directories in plain
ascending `name.lower()` order — no priority for sanitized or higher `g`. -/
def list_fragment_dirs (names : List String) : List String :=
  stableSortBy (fun a b => strLe (pyLower a) (pyLower b))
    (names.filter (fun n => g_folder_match n || g_san_match n))

/-- `read_csv_rows` (l. 53-62): keys and values stripped, header kept
as-is. -/
def read_csv_rows (f : CsvFile) : List String × List Row :=
  (f.fieldnames, f.rows.map (fun r => r.map (fun kv => (pyStrip kv.1, pyStrip kv.2))))

/-- `detect_id_key` (l. 65-75): first exact candidate in the stripped
header, else a case-insensitive match (later duplicate headers shadow
earlier ones in Python's dict comprehension). -/
def detect_id_key (header : List String) (candidates : List String) : Option String :=
  match candidates.find? (fun c => (header.map pyStrip).contains c) with
  | some c => some c
  | none => candidates.findSome? (fun c =>
      (header.reverse).find? (fun h => pyLower h = pyLower c))

/-- `{h: (r.get(h, "") or "").strip() for h in out_header}` (l. 116). -/
def normalize_row (out_header : List String) (r : Row) : Row :=
  out_header.map (fun h => (h, pyStrip ((r.lookup h).getD "")))

/-- The running state of `merge_master`; `aborted` models the early
`return [], []` when no id column is detected. -/
structure MergeAcc where
  out_header : List String
  id_key : Option String
  merged : List (String × Row)
  aborted : Bool
deriving DecidableEq

/-- One directory step of `merge_master` (l. 84-117). -/
def merge_step (fs : List (String × CsvFile)) (id_candidates : List String)
    (acc : MergeAcc) (d : String) : MergeAcc :=
  if acc.aborted then acc
  else
    match fs.lookup d with
    | none => acc
    | some f =>
      let header := (read_csv_rows f).1
      let rows := (read_csv_rows f).2
      if header = [] ∨ rows = [] then acc
      else
        let acc1 := if acc.out_header = [] then
            let idk := detect_id_key header id_candidates
            ⟨header, idk, acc.merged, idk.isNone⟩
          else acc
        if acc1.aborted then acc1
        else
          let idk := (acc1.id_key).getD ""
          let merged2 := rows.foldl (fun m r =>
            let rid := pyStrip ((r.lookup idk).getD "")
            if rid = "" then m
            else if (m.lookup rid).isSome then m
            else m ++ [(rid, normalize_row acc1.out_header r)]) acc1.merged
          ⟨acc1.out_header, acc1.id_key, merged2, acc1.aborted⟩

/-- `merge_master` (l. 78-123) up to the winners map (`merged`). -/
def merge_master (dirs : List String) (fs : List (String × CsvFile))
    (id_candidates : List String) : List String × List (String × Row) :=
  if (dirs.foldl (merge_step fs id_candidates) ⟨[], none, [], false⟩).aborted then ([], [])
  else ((dirs.foldl (merge_step fs id_candidates) ⟨[], none, [], false⟩).out_header,
        (dirs.foldl (merge_step fs id_candidates) ⟨[], none, [], false⟩).merged)

end MasterS

/-- The spec's two-fragment example: `g1/asset.csv` holds `{A_1, "x"}`
and `g2_SANITIZED/asset.csv` holds `{A_1, "y"}`. -/
def c2fs : List (String × CsvFile) :=
  [("g1", ⟨["asset_id", "name"], [[("asset_id", "A_1"), ("name", "x")]]⟩),
   ("g2_SANITIZED", ⟨["asset_id", "name"], [[("asset_id", "A_1"), ("name", "y")]]⟩)]

/-- Counterexample to C2 as stated: the `scripts/` merger variant scans
`g1` before `g2_SANITIZED` (plain name order, first seen wins), so the
master row for `A_1` keeps `"x"`, not the sanitized `"y"`. -/
theorem C2_counterexample :
    ((MasterS.merge_master (MasterS.list_fragment_dirs ["g1", "g2_SANITIZED"]) c2fs
        ["asset_id", "id", "assetId"]).2.lookup "A_1").map (fun r => r.lookup "name") =
      some (some "x")
    ∧ ¬ (((MasterS.merge_master (MasterS.list_fragment_dirs ["g1", "g2_SANITIZED"]) c2fs
        ["asset_id", "id", "assetId"]).2.lookup "A_1").map (fun r => r.lookup "name") =
      some (some "y")) := by
  refine ⟨by decide, by decide⟩

/-! ### C2 support lemmas -/

theorem lookup_append_some {β : Type _} {k : String} {l1 : List (String × β)}
    (l2 : List (String × β)) {v : β} (h : l1.lookup k = some v) :
    (l1 ++ l2).lookup k = some v := by
  induction l1 with
  | nil => cases h
  | cons hd tl ih =>
    rcases hd with ⟨a, b⟩
    by_cases hk : k = a
    · subst hk
      rw [lookup_cons_same] at h
      rw [List.cons_append, lookup_cons_same]
      exact h
    · rw [lookup_cons_diff _ _ hk] at h
      rw [List.cons_append, lookup_cons_diff _ _ hk]
      exact ih h

theorem lookup_append_none {β : Type _} {k : String} {l1 : List (String × β)}
    (l2 : List (String × β)) (h : l1.lookup k = none) :
    (l1 ++ l2).lookup k = l2.lookup k := by
  induction l1 with
  | nil => rfl
  | cons hd tl ih =>
    rcases hd with ⟨a, b⟩
    by_cases hk : k = a
    · subst hk
      rw [lookup_cons_same] at h
      cases h
    · rw [lookup_cons_diff _ _ hk] at h
      rw [List.cons_append, lookup_cons_diff _ _ hk]
      exact ih h

namespace MasterSc

theorem rows_fold_cons (id_col : String) (r : Row) (rs : List Row)
    (w : List (String × Row)) :
    rows_fold id_col (r :: rs) w = rows_fold id_col rs
      (if row_id id_col r = "" then w
       else if (w.lookup (row_id id_col r)).isSome then w
       else w ++ [(row_id id_col r, r)]) := rfl

theorem rows_fold_mono (id_col : String) (rows : List Row)
    {w : List (String × Row)} {rid : String} {x : Row}
    (h : w.lookup rid = some x) :
    (rows_fold id_col rows w).lookup rid = some x := by
  induction rows generalizing w with
  | nil => exact h
  | cons r rs ih =>
    rw [rows_fold_cons]
    by_cases h0 : row_id id_col r = ""
    · rw [if_pos h0]
      exact ih h
    · rw [if_neg h0]
      by_cases h1 : (w.lookup (row_id id_col r)).isSome
      · rw [if_pos h1]
        exact ih h
      · rw [if_neg h1]
        exact ih (lookup_append_some _ h)

theorem rows_fold_new (id_col : String) (rows : List Row)
    {w : List (String × Row)} {rid : String} (hrid : rid ≠ "")
    (h : w.lookup rid = none) :
    (rows_fold id_col rows w).lookup rid =
      rows.find? (fun r => row_id id_col r == rid) := by
  induction rows generalizing w with
  | nil => simpa [rows_fold] using h
  | cons r rs ih =>
    rw [rows_fold_cons]
    by_cases hp : (row_id id_col r == rid) = true
    · have hpe : row_id id_col r = rid := by simpa using hp
      rw [show List.find? (fun r => row_id id_col r == rid) (r :: rs) = some r by
        simp [List.find?_cons, hp]]
      have h0 : ¬ row_id id_col r = "" := by rw [hpe]; exact hrid
      rw [if_neg h0, hpe]
      rw [show (w.lookup rid).isSome = false by rw [h]; rfl]
      rw [if_neg (by simp)]
      refine rows_fold_mono id_col rs ?_
      rw [lookup_append_none _ h, lookup_cons_same]
    · have hpe : row_id id_col r ≠ rid := by simpa using hp
      have hpf : (row_id id_col r == rid) = false := by simpa using hp
      rw [show List.find? (fun r => row_id id_col r == rid) (r :: rs) =
          List.find? (fun r => row_id id_col r == rid) rs by
        simp [List.find?_cons, hpf]]
      by_cases h0 : row_id id_col r = ""
      · rw [if_pos h0]
        exact ih h
      · rw [if_neg h0]
        by_cases h1 : (w.lookup (row_id id_col r)).isSome
        · rw [if_pos h1]
          exact ih h
        · rw [if_neg h1]
          refine ih ?_
          rw [lookup_append_none _ h, lookup_cons_diff _ _ (Ne.symm hpe)]
          rfl

theorem build_fold_mono (fs : List (String × CsvFile)) (id_col : String)
    (dirs : List String) :
    ∀ (acc : List String × List (String × Row)) {rid : String} {x : Row},
      acc.2.lookup rid = some x →
      ((dirs.foldl (fun acc d =>
        match fs.lookup d with
        | none => acc
        | some f =>
          if (safe_read_file f).1 = [] ∨ (safe_read_file f).2 = [] then acc
          else (merge_headers acc.1 (safe_read_file f).1,
                rows_fold id_col (safe_read_file f).2 acc.2)) acc)).2.lookup rid =
        some x := by
  induction dirs with
  | nil => intro acc rid x h; exact h
  | cons d ds ih =>
    intro acc rid x h
    rw [List.foldl_cons]
    rcases hd : fs.lookup d with _ | f
    · exact ih _ (by simpa [hd] using h)
    · simp only [hd]
      by_cases hv : (safe_read_file f).1 = [] ∨ (safe_read_file f).2 = []
      · rw [if_pos hv]
        exact ih _ h
      · rw [if_neg hv]
        exact ih _ (rows_fold_mono id_col _ h)

end MasterSc

theorem dedup_pair {α : Type _} [DecidableEq α] {a b : α} (h : a ≠ b) :
    dedupKeepFirst [a, b] = [a, b] := by
  have hba : (b == a) = false := beq_eq_false_iff_ne.mpr (Ne.symm h)
  simp [dedupKeepFirst, List.contains, List.elem, hba]
  exact Ne.symm h

theorem sort_pair (le : α → α → Bool) (a b : α) :
    stableSortBy le [a, b] = if le a b = true then [a, b] else [b, a] := by
  by_cases h : le a b = true <;>
    simp [stableSortBy, insertSorted, h]

/-- The two-directory instance of `list_g_dirs`: with `n2` of strictly
higher priority than `n1`, the scan order is `[n2, n1]` whatever the
discovery order was. -/
theorem list_g_dirs_pair (n1 n2 : String)
    (hv1 : (MasterSc.extract_g_num n1).isSome)
    (hv2 : (MasterSc.extract_g_num n2).isSome) (hne : n1 ≠ n2)
    (hpri : MasterSc.key_le (MasterSc.g_priority_key n2) (MasterSc.g_priority_key n1) = true)
    (hpri2 : MasterSc.key_le (MasterSc.g_priority_key n1) (MasterSc.g_priority_key n2) = false)
    (names : List String) (hnames : names = [n1, n2] ∨ names = [n2, n1]) :
    MasterSc.list_g_dirs names = [n2, n1] := by
  rcases hnames with rfl | rfl
  · rw [MasterSc.list_g_dirs]
    rw [show [n1, n2].filter (fun n => (MasterSc.extract_g_num n).isSome) = [n1, n2] by
      simp [hv1, hv2]]
    rw [dedup_pair hne, sort_pair]
    by_cases hs : strLe (pyLower n1) (pyLower n2) = true
    · rw [if_pos hs, sort_pair, if_neg (by rw [hpri2]; simp)]
    · rw [if_neg hs, sort_pair, if_pos hpri]
  · rw [MasterSc.list_g_dirs]
    rw [show [n2, n1].filter (fun n => (MasterSc.extract_g_num n).isSome) = [n2, n1] by
      simp [hv1, hv2]]
    rw [dedup_pair (Ne.symm hne), sort_pair]
    by_cases hs : strLe (pyLower n2) (pyLower n1) = true
    · rw [if_pos hs, sort_pair, if_pos hpri]
    · rw [if_neg hs, sort_pair, if_neg (by rw [hpri2]; simp)]

/-- C2 (amended).  In the `sccripts/` merger, when two valid fragment
directories both carry a row for the same non-blank id and one has
strictly higher priority (sanitized before raw, higher `g` number
before lower), the higher-priority directory's first such row wins —
whatever order the directories were discovered in; in particular the
spec's `g1` / `g2_SANITIZED` example yields `A_1 → "y"` there.  The
`scripts/` variant is the one refuted by the counterexample. -/
theorem C2_fragment_priority_amended :
    (∀ (n1 n2 : String) (fs : List (String × CsvFile)) (id_col rid : String)
       (f2 : CsvFile) (r2 : Row),
      (MasterSc.extract_g_num n1).isSome → (MasterSc.extract_g_num n2).isSome →
      n1 ≠ n2 →
      MasterSc.key_le (MasterSc.g_priority_key n2) (MasterSc.g_priority_key n1) = true →
      MasterSc.key_le (MasterSc.g_priority_key n1) (MasterSc.g_priority_key n2) = false →
      rid ≠ "" →
      fs.lookup n2 = some f2 →
      ¬ ((MasterSc.safe_read_file f2).1 = [] ∨ (MasterSc.safe_read_file f2).2 = []) →
      (MasterSc.safe_read_file f2).2.find?
        (fun r => MasterSc.row_id id_col r == rid) = some r2 →
      ∀ names, (names = [n1, n2] ∨ names = [n2, n1]) →
        (MasterSc.build_one_master (MasterSc.list_g_dirs names) fs id_col).2.lookup rid =
          some r2)
    ∧ (((MasterSc.build_one_master (MasterSc.list_g_dirs ["g1", "g2_SANITIZED"]) c2fs
        "asset_id").2.lookup "A_1").map (fun r => r.lookup "name") = some (some "y")) := by
  constructor
  · intro n1 n2 fs id_col rid f2 r2 hv1 hv2 hne hpri hpri2 hrid hf2 hvalid hfind names hnames
    rw [list_g_dirs_pair n1 n2 hv1 hv2 hne hpri hpri2 names hnames]
    rw [MasterSc.build_one_master]
    rw [List.foldl_cons]
    simp only [hf2]
    rw [if_neg hvalid]
    have hstep : (MasterSc.rows_fold id_col (MasterSc.safe_read_file f2).2
        ([] : List (String × Row))).lookup rid = some r2 := by
      rw [MasterSc.rows_fold_new id_col _ hrid
        (show List.lookup rid ([] : List (String × Row)) = none from rfl), hfind]
    exact MasterSc.build_fold_mono fs id_col [n1] _ hstep
  · decide

/-- Witness for C2 (amended): the general priority statement applied to
the spec's own two directories, fragments and id. -/
theorem C2_fragment_priority_amended_witness :
    ((MasterSc.extract_g_num "g1").isSome ∧ (MasterSc.extract_g_num "g2_SANITIZED").isSome) ∧
    ((MasterSc.build_one_master (MasterSc.list_g_dirs ["g1", "g2_SANITIZED"]) c2fs
        "asset_id").2.lookup "A_1" =
      some [("asset_id", "A_1"), ("name", "y")]) :=
  ⟨⟨by decide, by decide⟩,
   C2_fragment_priority_amended.1 "g1" "g2_SANITIZED" c2fs "asset_id" "A_1"
     ⟨["asset_id", "name"], [[("asset_id", "A_1"), ("name", "y")]]⟩
     [("asset_id", "A_1"), ("name", "y")]
     (by decide) (by decide) (by decide) (by decide) (by decide) (by decide)
     (by decide) (by decide) (by decide)
     ["g1", "g2_SANITIZED"] (Or.inl rfl)⟩

/-! ## C3 / C4: metrics injection (`build_freeze.py`)

JSON scalar values are `JValue`; a metrics dict (and a cache item) is an
association list with unique keys, updated by `setKey`.  Caches map a
ticker / assetId to an item. -/

namespace BuildFreeze

/-- A JSON scalar as the injection code sees it. -/
inductive JValue where
  | null
  | num (q : ℚ)
  | str (s : String)
deriving DecidableEq

/-- A metrics dict / cache item. -/
abbrev Metrics := List (String × JValue)

/-- `metrics[key] = value` on a dict with unique keys. -/
def setKey (m : Metrics) (k : String) (v : JValue) : Metrics :=
  match m with
  | [] => [(k, v)]
  | (k0, v0) :: rest => if k0 = k then (k0, v) :: rest else (k0, v0) :: setKey rest k v

/-- `isinstance(value, str) and value.strip() == ""`. -/
def isBlankStr : JValue → Bool
  | .str s => pyStrip s = ""
  | _ => false

/-- `_set_if_meaningful` (`build_freeze.py` l. 322-333): `None` and blank
strings never overwrite; equal values are no-ops; otherwise write and
report a change. -/
def _set_if_meaningful (m : Metrics) (k : String) (v : JValue) : Metrics × Bool :=
  if v = .null then (m, false)
  else if isBlankStr v then (m, false)
  else if m.lookup k = some v then (m, false)
  else (setKey m k v, true)

/-- `VAL_KEYS` (`build_freeze.py` l. 26). -/
def VAL_KEYS : List String :=
  ["close", "marketCap", "pe_ttm", "valuationAsOf", "valuationSource"]

/-- `RET_META_KEYS` (`build_freeze.py` l. 27). -/
def RET_META_KEYS : List String := ["returnsAsOf", "returnsSource"]

/-- `_ensure_asset_metrics_shape` (`build_freeze.py` l. 336-354) on the
node's metrics value (`none` models a missing / non-dict `metrics`). -/
def _ensure_asset_metrics_shape (m : Option Metrics) : Metrics × Bool :=
  RETURN_KEYS.foldl (fun acc rk =>
    if (acc.1.lookup rk).isSome then acc else (setKey acc.1 rk .null, true))
    (match m with
     | some mm => (mm, false)
     | none => ([], true))

/-- `_is_valid_kr_ticker` (`build_freeze.py` l. 162-163). -/
def _is_valid_kr_ticker (t : String) : Bool :=
  (pyStrip t).data.length = 6 && (pyStrip t).data.all Char.isDigit

/-- `x not in (None, 0, 0.0)` on a looked-up cache field. -/
def val_field_ok (val : Metrics) (k : String) : Bool :=
  match val.lookup k with
  | some v => v ≠ .null && v ≠ .num 0
  | none => false

/-- `_is_meaningful_valuation` (`build_freeze.py` l. 310-317). -/
def _is_meaningful_valuation (val : Metrics) : Bool :=
  val_field_ok val "close" || val_field_ok val "marketCap" || val_field_ok val "pe_ttm"

/-- `for k in KEYS: if k in rec: changed = _set_if_meaningful(...) or changed`
(the `VAL_KEYS` loops, `build_freeze.py` l. 413-415 and 431-433). -/
def apply_keys_in (keys : List String) (rec : Metrics) (mc : Metrics × Bool) :
    Metrics × Bool :=
  keys.foldl (fun acc k =>
    if (rec.lookup k).isSome then
      ((_set_if_meaningful acc.1 k ((rec.lookup k).getD .null)).1,
       (_set_if_meaningful acc.1 k ((rec.lookup k).getD .null)).2 || acc.2)
    else acc) mc

/-- `for k in KEYS: changed = _set_if_meaningful(metrics, k, rec.get(k)) or changed`
(the returns loops, `build_freeze.py` l. 419-422 and 443-446). -/
def apply_keys_all (keys : List String) (rec : Metrics) (mc : Metrics × Bool) :
    Metrics × Bool :=
  keys.foldl (fun acc k =>
    ((_set_if_meaningful acc.1 k ((rec.lookup k).getD .null)).1,
     (_set_if_meaningful acc.1 k ((rec.lookup k).getD .null)).2 || acc.2)) mc

/-- An ASSET node as the injection sees it (the exposure sub-object is
flattened to its `country` / `ticker`, which `_normalize_theme_obj`
guarantees exist). -/
structure Node where
  typ : String
  id : String
  country : String
  ticker : String
  metrics : Option Metrics
deriving DecidableEq

/-- A loaded cache: ticker or assetId → item. -/
abbrev Cache := List (String × Metrics)

/-- Section (1) of `inject_metrics_into_theme` (`build_freeze.py`
l. 405-422): KR valuation and returns by 6-digit ticker. -/
def kr_step (krVal krRet : Cache) (country ticker : String) (mc : Metrics × Bool) :
    Metrics × Bool :=
  if country = "KR" ∧ ticker ≠ "" then
    if _is_valid_kr_ticker (pyZfill ticker 6) then
      let mc1 := match krVal.lookup (pyZfill ticker 6) with
        | some val =>
          if val ≠ [] ∧ _is_meaningful_valuation val then apply_keys_in VAL_KEYS val mc
          else mc
        | none => mc
      match krRet.lookup (pyZfill ticker 6) with
      | some ret =>
        if ret ≠ [] then apply_keys_all RET_META_KEYS ret (apply_keys_all RETURN_KEYS ret mc1)
        else mc1
      | none => mc1
    else mc
  else mc

/-- Section (2) (`build_freeze.py` l. 428-435): US valuation by assetId.
(The `updated_us` counter is not needed by any claim and is omitted.) -/
def us_step (fmpVal : Cache) (aid country : String) (mc : Metrics × Bool) :
    Metrics × Bool :=
  if aid ≠ "" ∧ country = "US" then
    match fmpVal.lookup aid with
    | some fmp =>
      if fmp ≠ [] ∧ _is_meaningful_valuation fmp then apply_keys_in VAL_KEYS fmp mc
      else mc
    | none => mc
  else mc

/-- Section (3) (`build_freeze.py` l. 440-446): the catch-all returns by
assetId. -/
def all_step (retAll : Cache) (aid : String) (mc : Metrics × Bool) : Metrics × Bool :=
  if aid ≠ "" then
    match retAll.lookup aid with
    | some r =>
      if r ≠ [] then apply_keys_all RET_META_KEYS r (apply_keys_all RETURN_KEYS r mc)
      else mc
    | none => mc
  else mc

/-- The per-ASSET-node body of `inject_metrics_into_theme`
(`build_freeze.py` l. 385-449): shape normalization, then the three
injection sections; returns the updated node, `changed_any` and the
node's structural-change flag. -/
def inject_node (krVal krRet fmpVal retAll : Cache) (node : Node) :
    Node × Bool × Bool :=
  let es := _ensure_asset_metrics_shape node.metrics
  let mc := all_step retAll (pyStrip node.id)
    (us_step fmpVal (pyStrip node.id) (pyStrip (pyUpper node.country))
      (kr_step krVal krRet (pyStrip (pyUpper node.country)) (pyStrip node.ticker)
        (es.1, false)))
  ({ node with metrics := some mc.1 }, mc.2, es.2)

/-- The outcome of one `inject_metrics_into_theme` run. -/
structure InjectResult where
  nodes : List Node
  updated : Nat
  structural : Bool
deriving DecidableEq

/-- `inject_metrics_into_theme` (`build_freeze.py` l. 359-460) over the
node list: non-ASSET nodes pass through untouched. -/
def inject_metrics_into_theme (krVal krRet fmpVal retAll : Cache)
    (nodes : List Node) : InjectResult :=
  nodes.foldl (fun acc n =>
    if n.typ = "ASSET" then
      ⟨acc.nodes ++ [(inject_node krVal krRet fmpVal retAll n).1],
       acc.updated + (if (inject_node krVal krRet fmpVal retAll n).2.1 then 1 else 0),
       acc.structural || (inject_node krVal krRet fmpVal retAll n).2.2⟩
    else ⟨acc.nodes ++ [n], acc.updated, acc.structural⟩) ⟨[], 0, false⟩

/-- The write condition (`build_freeze.py` l. 452-453): the theme file is
persisted iff a value changed or the shape was normalized. -/
def should_write (r : InjectResult) : Bool := r.updated > 0 || r.structural

end BuildFreeze

namespace ThemeMetrics

/-- The returns-merge loop of `update_one_theme`
(`update_theme_metrics.py` l. 549-551): only non-`None` computed values
are written onto the metrics dict. -/
def merge_returns (m : BuildFreeze.Metrics) (returns : List (String × Option ℚ)) :
    BuildFreeze.Metrics :=
  returns.foldl (fun acc kv =>
    match kv.2 with
    | some v => BuildFreeze.setKey acc kv.1 (BuildFreeze.JValue.num v)
    | none => acc) m

end ThemeMetrics

/-! ### C3: stored values are never cleared -/

theorem foldl_preserves {σ β : Type _} (P : σ → Prop) (f : σ → β → σ)
    (l : List β) (hstep : ∀ s b, P s → P (f s b)) :
    ∀ s, P s → P (l.foldl f s) := by
  induction l with
  | nil => intro s h; exact h
  | cons b bs ih =>
    intro s h
    rw [List.foldl_cons]
    exact ih _ (hstep s b h)

namespace BuildFreeze

theorem lookup_setKey_self (m : Metrics) (k : String) (v : JValue) :
    (setKey m k v).lookup k = some v := by
  induction m with
  | nil => exact lookup_cons_same _ _ _
  | cons hd tl ih =>
    rcases hd with ⟨k0, v0⟩
    rw [setKey]
    by_cases h : k0 = k
    · subst h
      rw [if_pos rfl]
      exact lookup_cons_same _ _ _
    · rw [if_neg h, lookup_cons_diff _ _ (Ne.symm h)]
      exact ih

theorem lookup_setKey_ne (m : Metrics) (k : String) (v : JValue) {k2 : String}
    (h : k2 ≠ k) : (setKey m k v).lookup k2 = m.lookup k2 := by
  induction m with
  | nil => exact lookup_cons_diff _ _ h
  | cons hd tl ih =>
    rcases hd with ⟨k0, v0⟩
    rw [setKey]
    by_cases h0 : k0 = k
    · subst h0
      rw [if_pos rfl, lookup_cons_diff _ _ h, lookup_cons_diff _ _ h]
    · rw [if_neg h0]
      by_cases h2 : k2 = k0
      · subst h2
        rw [lookup_cons_same, lookup_cons_same]
      · rw [lookup_cons_diff _ _ h2, lookup_cons_diff _ _ h2]
        exact ih

/-- A value the write policy may leave in a metrics dict: not `None`,
not a blank string. -/
def good_val (v : JValue) : Prop := v ≠ JValue.null ∧ isBlankStr v = false

/-- Key `k` holds a non-null, non-blank value in `m`. -/
def StoredGood (m : Metrics) (k : String) : Prop :=
  ∃ v, m.lookup k = some v ∧ good_val v

theorem set_if_meaningful_lookup (m : Metrics) (k0 : String) (v : JValue)
    (k : String) :
    ((_set_if_meaningful m k0 v).1).lookup k = m.lookup k ∨
    (((_set_if_meaningful m k0 v).1).lookup k = some v ∧ good_val v) := by
  rw [_set_if_meaningful]
  by_cases h1 : v = JValue.null
  · rw [if_pos h1]
    exact Or.inl rfl
  · rw [if_neg h1]
    by_cases h2 : isBlankStr v = true
    · rw [if_pos h2]
      exact Or.inl rfl
    · rw [if_neg h2]
      by_cases h3 : m.lookup k0 = some v
      · rw [if_pos h3]
        exact Or.inl rfl
      · rw [if_neg h3]
        by_cases hk : k = k0
        · subst hk
          exact Or.inr ⟨lookup_setKey_self _ _ _, h1, by simpa using h2⟩
        · exact Or.inl (lookup_setKey_ne _ _ _ hk)

theorem set_if_preserves_storedGood {m : Metrics} {k : String} (k0 : String)
    (v : JValue) (h : StoredGood m k) :
    StoredGood ((_set_if_meaningful m k0 v).1) k := by
  rcases set_if_meaningful_lookup m k0 v k with he | ⟨he, hg⟩
  · obtain ⟨w, hw, hgw⟩ := h
    exact ⟨w, by rw [he]; exact hw, hgw⟩
  · exact ⟨v, he, hg⟩

theorem apply_keys_in_storedGood (keys : List String) (rec : Metrics)
    {mc : Metrics × Bool} {k : String} (h : StoredGood mc.1 k) :
    StoredGood ((apply_keys_in keys rec mc).1) k := by
  refine foldl_preserves (fun acc => StoredGood acc.1 k) _ keys ?_ mc h
  intro s b hs
  by_cases hb : (rec.lookup b).isSome
  · simp only [if_pos hb]
    exact set_if_preserves_storedGood b _ hs
  · simp only [if_neg hb]
    exact hs

theorem apply_keys_all_storedGood (keys : List String) (rec : Metrics)
    {mc : Metrics × Bool} {k : String} (h : StoredGood mc.1 k) :
    StoredGood ((apply_keys_all keys rec mc).1) k := by
  refine foldl_preserves (fun acc => StoredGood acc.1 k) _ keys ?_ mc h
  intro s b hs
  exact set_if_preserves_storedGood b _ hs

theorem ensure_preserves_storedGood {mm : Metrics} {k : String}
    (h : StoredGood mm k) :
    StoredGood ((_ensure_asset_metrics_shape (some mm)).1) k := by
  rw [_ensure_asset_metrics_shape]
  refine foldl_preserves (fun acc => StoredGood acc.1 k) _ RETURN_KEYS ?_ (mm, false) h
  intro s rk hs
  by_cases hp : (s.1.lookup rk).isSome
  · rw [if_pos hp]
    exact hs
  · rw [if_neg hp]
    obtain ⟨w, hw, hgw⟩ := hs
    have hk : k ≠ rk := by
      rintro rfl
      rw [hw] at hp
      exact hp rfl
    exact ⟨w, by rw [lookup_setKey_ne _ _ _ hk]; exact hw, hgw⟩

theorem kr_step_storedGood (krVal krRet : Cache) (country ticker : String)
    {mc : Metrics × Bool} {k : String} (h : StoredGood mc.1 k) :
    StoredGood ((kr_step krVal krRet country ticker mc).1) k := by
  rw [kr_step]
  by_cases h1 : country = "KR" ∧ ticker ≠ ""
  · rw [if_pos h1]
    by_cases h2 : _is_valid_kr_ticker (pyZfill ticker 6) = true
    · rw [if_pos h2]
      have hmc1 : StoredGood (match krVal.lookup (pyZfill ticker 6) with
          | some val =>
            if val ≠ [] ∧ _is_meaningful_valuation val then apply_keys_in VAL_KEYS val mc
            else mc
          | none => mc).1 k := by
        rcases krVal.lookup (pyZfill ticker 6) with _ | val
        · exact h
        · by_cases h3 : val ≠ [] ∧ _is_meaningful_valuation val = true
          · simp only [if_pos h3]
            exact apply_keys_in_storedGood _ _ h
          · simp only [if_neg h3]
            exact h
      rcases krRet.lookup (pyZfill ticker 6) with _ | ret
      · exact hmc1
      · by_cases h4 : ret ≠ []
        · simp only [if_pos h4]
          exact apply_keys_all_storedGood _ _ (apply_keys_all_storedGood _ _ hmc1)
        · simp only [if_neg h4]
          exact hmc1
    · rw [if_neg h2]
      exact h
  · rw [if_neg h1]
    exact h

theorem us_step_storedGood (fmpVal : Cache) (aid country : String)
    {mc : Metrics × Bool} {k : String} (h : StoredGood mc.1 k) :
    StoredGood ((us_step fmpVal aid country mc).1) k := by
  rw [us_step]
  by_cases h1 : aid ≠ "" ∧ country = "US"
  · rw [if_pos h1]
    rcases fmpVal.lookup aid with _ | fmp
    · exact h
    · by_cases h2 : fmp ≠ [] ∧ _is_meaningful_valuation fmp = true
      · simp only [if_pos h2]
        exact apply_keys_in_storedGood _ _ h
      · simp only [if_neg h2]
        exact h
  · rw [if_neg h1]
    exact h

theorem all_step_storedGood (retAll : Cache) (aid : String)
    {mc : Metrics × Bool} {k : String} (h : StoredGood mc.1 k) :
    StoredGood ((all_step retAll aid mc).1) k := by
  rw [all_step]
  by_cases h1 : aid ≠ ""
  · rw [if_pos h1]
    rcases retAll.lookup aid with _ | r
    · exact h
    · by_cases h2 : r ≠ []
      · simp only [if_pos h2]
        exact apply_keys_all_storedGood _ _ (apply_keys_all_storedGood _ _ h)
      · simp only [if_neg h2]
        exact h
  · rw [if_neg h1]
    exact h

theorem inject_node_storedGood (krVal krRet fmpVal retAll : Cache) (node : Node)
    {mm : Metrics} {k : String} (hm : node.metrics = some mm)
    (h : StoredGood mm k) :
    ∃ m2, (inject_node krVal krRet fmpVal retAll node).1.metrics = some m2 ∧
      StoredGood m2 k := by
  refine ⟨_, rfl, ?_⟩
  refine all_step_storedGood _ _ (us_step_storedGood _ _ _ (kr_step_storedGood _ _ _ _ ?_))
  show StoredGood (_ensure_asset_metrics_shape node.metrics).1 k
  rw [hm]
  exact ensure_preserves_storedGood h

/-- The output node list is the input list with `inject_node` applied to
the ASSET nodes. -/
theorem inject_theme_nodes (krVal krRet fmpVal retAll : Cache) (nodes : List Node) :
    (inject_metrics_into_theme krVal krRet fmpVal retAll nodes).nodes =
      nodes.map (fun n => if n.typ = "ASSET"
        then (inject_node krVal krRet fmpVal retAll n).1 else n) := by
  rw [inject_metrics_into_theme]
  have haux : ∀ (l : List Node) (acc : InjectResult),
      (l.foldl (fun acc n =>
        if n.typ = "ASSET" then
          (⟨acc.nodes ++ [(inject_node krVal krRet fmpVal retAll n).1],
           acc.updated + (if (inject_node krVal krRet fmpVal retAll n).2.1 then 1 else 0),
           acc.structural || (inject_node krVal krRet fmpVal retAll n).2.2⟩ : InjectResult)
        else ⟨acc.nodes ++ [n], acc.updated, acc.structural⟩) acc).nodes =
      acc.nodes ++ l.map (fun n => if n.typ = "ASSET"
        then (inject_node krVal krRet fmpVal retAll n).1 else n) := by
    intro l
    induction l with
    | nil => intro acc; simp
    | cons n ns ih =>
      intro acc
      rw [List.foldl_cons, List.map_cons]
      by_cases ht : n.typ = "ASSET"
      · rw [if_pos ht, ih, if_pos ht]
        simp
      · rw [if_neg ht, ih, if_neg ht]
        simp
  simpa using haux nodes ⟨[], 0, false⟩

end BuildFreeze

/-- C3. Metrics injection never clears a stored non-null, non-blank
metric value: after `inject_node` the key still holds a non-null,
non-blank value (and the theme-level run only rewrites ASSET nodes via
`inject_node`); likewise `update_theme_metrics.py`'s returns merge only
writes non-`None` numbers over existing values. -/
theorem C3_never_clears_stored_metrics :
    (∀ (krVal krRet fmpVal retAll : BuildFreeze.Cache) (node : BuildFreeze.Node)
       (mm : BuildFreeze.Metrics) (k : String),
      node.metrics = some mm → BuildFreeze.StoredGood mm k →
      ∃ m2, (BuildFreeze.inject_node krVal krRet fmpVal retAll node).1.metrics = some m2 ∧
        BuildFreeze.StoredGood m2 k)
    ∧ (∀ (krVal krRet fmpVal retAll : BuildFreeze.Cache) (nodes : List BuildFreeze.Node),
      (BuildFreeze.inject_metrics_into_theme krVal krRet fmpVal retAll nodes).nodes =
        nodes.map (fun n => if n.typ = "ASSET"
          then (BuildFreeze.inject_node krVal krRet fmpVal retAll n).1 else n))
    ∧ (∀ (m : BuildFreeze.Metrics) (returns : List (String × Option ℚ)) (k : String),
      BuildFreeze.StoredGood m k →
      BuildFreeze.StoredGood (ThemeMetrics.merge_returns m returns) k) := by
  refine ⟨?_, ?_, ?_⟩
  · intro krVal krRet fmpVal retAll node mm k hm h
    exact BuildFreeze.inject_node_storedGood krVal krRet fmpVal retAll node hm h
  · intro krVal krRet fmpVal retAll nodes
    exact BuildFreeze.inject_theme_nodes krVal krRet fmpVal retAll nodes
  · intro m returns k h
    rw [ThemeMetrics.merge_returns]
    refine foldl_preserves (fun acc => BuildFreeze.StoredGood acc k) _ returns ?_ m h
    intro s kv hs
    rcases kv with ⟨k0, v0⟩
    rcases v0 with _ | v
    · exact hs
    · obtain ⟨w, hw, hgw⟩ := hs
      by_cases hk : k = k0
      · subst hk
        exact ⟨BuildFreeze.JValue.num v, BuildFreeze.lookup_setKey_self _ _ _,
          by simp [BuildFreeze.good_val, BuildFreeze.isBlankStr]⟩
      · exact ⟨w, by rw [BuildFreeze.lookup_setKey_ne _ _ _ hk]; exact hw, hgw⟩

/-- Witness for C3 at a concrete KR node holding `close = 70000` while
the KR returns cache offers a new `return_3d`. -/
theorem C3_never_clears_stored_metrics_witness :
    ((⟨"ASSET", "A_088", "KR", "005930",
        some [("close", BuildFreeze.JValue.num 70000)]⟩ : BuildFreeze.Node).metrics =
      some [("close", BuildFreeze.JValue.num 70000)]) ∧
    (∃ m2, (BuildFreeze.inject_node [] [("005930", [("return_3d", BuildFreeze.JValue.num 1)])]
        [] [] ⟨"ASSET", "A_088", "KR", "005930",
          some [("close", BuildFreeze.JValue.num 70000)]⟩).1.metrics = some m2 ∧
      BuildFreeze.StoredGood m2 "close") :=
  ⟨rfl,
   C3_never_clears_stored_metrics.1 [] [("005930", [("return_3d", BuildFreeze.JValue.num 1)])]
     [] [] ⟨"ASSET", "A_088", "KR", "005930", some [("close", BuildFreeze.JValue.num 70000)]⟩
     [("close", BuildFreeze.JValue.num 70000)] "close" rfl
     ⟨BuildFreeze.JValue.num 70000, rfl, by decide, by decide⟩⟩

/-! ### C4 support: lookup formulas, no-op and presence lemmas -/

namespace BuildFreeze

theorem prod_fst_mk {a b : Type _} (x : a) (y : b) : (x, y).1 = x := rfl

theorem prod_snd_mk {a b : Type _} (x : a) (y : b) : (x, y).2 = y := rfl

/-- `rec.get(k)` as the injection offers it. -/
def offer (rec : Metrics) (k : String) : JValue := (rec.lookup k).getD JValue.null

/-- The offered value would actually be written (not `None`, not blank). -/
def good_offer (rec : Metrics) (k : String) : Prop :=
  offer rec k ≠ JValue.null ∧ isBlankStr (offer rec k) = false

instance good_offer_dec (rec : Metrics) (k : String) : Decidable (good_offer rec k) :=
  inferInstanceAs (Decidable (offer rec k ≠ JValue.null ∧ isBlankStr (offer rec k) = false))

theorem set_if_lookup_self (m : Metrics) (k : String) (v : JValue) :
    ((_set_if_meaningful m k v).1).lookup k =
      if v ≠ JValue.null ∧ isBlankStr v = false then some v else m.lookup k := by
  rw [_set_if_meaningful]
  by_cases h1 : v = JValue.null
  · have hn : ¬(v ≠ JValue.null ∧ isBlankStr v = false) := fun hc => hc.1 h1
    rw [if_pos h1, if_neg hn]
  · rw [if_neg h1]
    by_cases h2 : isBlankStr v = true
    · have hn : ¬(v ≠ JValue.null ∧ isBlankStr v = false) := fun hc => by
        rw [hc.2] at h2
        cases h2
      rw [if_pos h2, if_neg hn]
    · have hp : v ≠ JValue.null ∧ isBlankStr v = false := ⟨h1, by simpa using h2⟩
      rw [if_neg h2, if_pos hp]
      by_cases h3 : m.lookup k = some v
      · rw [if_pos h3]
        exact h3
      · rw [if_neg h3]
        exact lookup_setKey_self m k v

theorem set_if_lookup_ne (m : Metrics) (k : String) (v : JValue) {k2 : String}
    (h : k2 ≠ k) : ((_set_if_meaningful m k v).1).lookup k2 = m.lookup k2 := by
  rw [_set_if_meaningful]
  by_cases h1 : v = JValue.null
  · rw [if_pos h1]
  · rw [if_neg h1]
    by_cases h2 : isBlankStr v = true
    · rw [if_pos h2]
    · rw [if_neg h2]
      by_cases h3 : m.lookup k = some v
      · rw [if_pos h3]
      · rw [if_neg h3]
        exact lookup_setKey_ne m k v h

theorem set_if_eq_self (m : Metrics) (k : String) (v : JValue)
    (h : (v ≠ JValue.null ∧ isBlankStr v = false) → m.lookup k = some v) :
    _set_if_meaningful m k v = (m, false) := by
  rw [_set_if_meaningful]
  by_cases h1 : v = JValue.null
  · rw [if_pos h1]
  · rw [if_neg h1]
    by_cases h2 : isBlankStr v = true
    · rw [if_pos h2]
    · rw [if_neg h2, if_pos (h ⟨h1, by simpa using h2⟩)]

theorem set_if_lookup_offer (m rec : Metrics) (k : String) :
    ((_set_if_meaningful m k ((rec.lookup k).getD JValue.null)).1).lookup k =
      if good_offer rec k then some (offer rec k) else m.lookup k := by
  rw [set_if_lookup_self]
  rfl

theorem set_if_offer_eq_self (m rec : Metrics) (k : String)
    (h : good_offer rec k → m.lookup k = some (offer rec k)) :
    _set_if_meaningful m k ((rec.lookup k).getD JValue.null) = (m, false) :=
  set_if_eq_self m k _ h

theorem not_good_offer_of_none {rec : Metrics} {k : String}
    (h : (rec.lookup k).isSome = false) : ¬ good_offer rec k := by
  rintro ⟨h1, _⟩
  apply h1
  show (rec.lookup k).getD JValue.null = JValue.null
  rcases he : rec.lookup k with _ | v
  · rfl
  · rw [he] at h
    cases h

theorem apply_all_cons (k0 : String) (ks : List String) (rec : Metrics)
    (mc : Metrics × Bool) :
    apply_keys_all (k0 :: ks) rec mc = apply_keys_all ks rec
      ((_set_if_meaningful mc.1 k0 ((rec.lookup k0).getD JValue.null)).1,
       (_set_if_meaningful mc.1 k0 ((rec.lookup k0).getD JValue.null)).2 || mc.2) := rfl

theorem apply_in_cons (k0 : String) (ks : List String) (rec : Metrics)
    (mc : Metrics × Bool) :
    apply_keys_in (k0 :: ks) rec mc = apply_keys_in ks rec
      (if (rec.lookup k0).isSome then
        ((_set_if_meaningful mc.1 k0 ((rec.lookup k0).getD JValue.null)).1,
         (_set_if_meaningful mc.1 k0 ((rec.lookup k0).getD JValue.null)).2 || mc.2)
       else mc) := rfl

theorem apply_all_lookup (keys : List String) (rec : Metrics)
    (mc : Metrics × Bool) (k : String) :
    ((apply_keys_all keys rec mc).1).lookup k =
      if k ∈ keys ∧ good_offer rec k then some (offer rec k) else mc.1.lookup k := by
  induction keys generalizing mc with
  | nil =>
    have hn : ¬(k ∈ ([] : List String) ∧ good_offer rec k) := fun hc =>
      List.not_mem_nil k hc.1
    rw [if_neg hn]
    rfl
  | cons k0 ks ih =>
    rw [apply_all_cons, ih, prod_fst_mk]
    by_cases hk : k = k0
    · subst hk
      rw [set_if_lookup_offer]
      by_cases hg : good_offer rec k
      · have hp : k ∈ k :: ks ∧ good_offer rec k := ⟨List.mem_cons_self k ks, hg⟩
        rw [if_pos hg, if_pos hp, ite_self]
      · have hn1 : ¬(k ∈ ks ∧ good_offer rec k) := fun hc => hg hc.2
        have hn2 : ¬(k ∈ k :: ks ∧ good_offer rec k) := fun hc => hg hc.2
        rw [if_neg hn1, if_neg hg, if_neg hn2]
    · rw [set_if_lookup_ne mc.1 k0 ((rec.lookup k0).getD JValue.null) hk]
      by_cases hks : k ∈ ks ∧ good_offer rec k
      · have hp : k ∈ k0 :: ks ∧ good_offer rec k :=
          ⟨List.mem_cons_of_mem k0 hks.1, hks.2⟩
        rw [if_pos hks, if_pos hp]
      · have hn : ¬(k ∈ k0 :: ks ∧ good_offer rec k) := fun hc =>
          hks ⟨(List.mem_cons.mp hc.1).resolve_left hk, hc.2⟩
        rw [if_neg hks, if_neg hn]

theorem apply_in_lookup (keys : List String) (rec : Metrics)
    (mc : Metrics × Bool) (k : String) :
    ((apply_keys_in keys rec mc).1).lookup k =
      if k ∈ keys ∧ good_offer rec k then some (offer rec k) else mc.1.lookup k := by
  induction keys generalizing mc with
  | nil =>
    have hn : ¬(k ∈ ([] : List String) ∧ good_offer rec k) := fun hc =>
      List.not_mem_nil k hc.1
    rw [if_neg hn]
    rfl
  | cons k0 ks ih =>
    rw [apply_in_cons]
    by_cases hs : (rec.lookup k0).isSome = true
    · rw [if_pos hs, ih, prod_fst_mk]
      by_cases hk : k = k0
      · subst hk
        rw [set_if_lookup_offer]
        by_cases hg : good_offer rec k
        · have hp : k ∈ k :: ks ∧ good_offer rec k := ⟨List.mem_cons_self k ks, hg⟩
          rw [if_pos hg, if_pos hp, ite_self]
        · have hn1 : ¬(k ∈ ks ∧ good_offer rec k) := fun hc => hg hc.2
          have hn2 : ¬(k ∈ k :: ks ∧ good_offer rec k) := fun hc => hg hc.2
          rw [if_neg hn1, if_neg hg, if_neg hn2]
      · rw [set_if_lookup_ne mc.1 k0 ((rec.lookup k0).getD JValue.null) hk]
        by_cases hks : k ∈ ks ∧ good_offer rec k
        · have hp : k ∈ k0 :: ks ∧ good_offer rec k :=
            ⟨List.mem_cons_of_mem k0 hks.1, hks.2⟩
          rw [if_pos hks, if_pos hp]
        · have hn : ¬(k ∈ k0 :: ks ∧ good_offer rec k) := fun hc =>
            hks ⟨(List.mem_cons.mp hc.1).resolve_left hk, hc.2⟩
          rw [if_neg hks, if_neg hn]
    · rw [if_neg hs, ih]
      by_cases hks : k ∈ ks ∧ good_offer rec k
      · have hp : k ∈ k0 :: ks ∧ good_offer rec k :=
          ⟨List.mem_cons_of_mem k0 hks.1, hks.2⟩
        rw [if_pos hks, if_pos hp]
      · have hn : ¬(k ∈ k0 :: ks ∧ good_offer rec k) := by
          rintro ⟨hm, hg⟩
          rcases List.mem_cons.mp hm with rfl | hm2
          · exact not_good_offer_of_none (Bool.eq_false_iff.mpr hs) hg
          · exact hks ⟨hm2, hg⟩
        rw [if_neg hks, if_neg hn]

theorem apply_all_noop (keys : List String) (rec : Metrics) (m : Metrics) (c : Bool)
    (h : ∀ k ∈ keys, good_offer rec k → m.lookup k = some (offer rec k)) :
    apply_keys_all keys rec (m, c) = (m, c) := by
  induction keys with
  | nil => rfl
  | cons k0 ks ih =>
    rw [apply_all_cons]
    simp only [prod_fst_mk, prod_snd_mk]
    rw [set_if_offer_eq_self m rec k0 (h k0 (List.mem_cons_self k0 ks))]
    simp only [prod_fst_mk, prod_snd_mk, Bool.false_or]
    exact ih (fun k hk hg => h k (List.mem_cons_of_mem k0 hk) hg)

theorem apply_in_noop (keys : List String) (rec : Metrics) (m : Metrics) (c : Bool)
    (h : ∀ k ∈ keys, good_offer rec k → m.lookup k = some (offer rec k)) :
    apply_keys_in keys rec (m, c) = (m, c) := by
  induction keys with
  | nil => rfl
  | cons k0 ks ih =>
    rw [apply_in_cons]
    by_cases hs : ((rec.lookup k0).isSome : Prop)
    · rw [if_pos hs]
      simp only [prod_fst_mk, prod_snd_mk]
      rw [set_if_offer_eq_self m rec k0 (h k0 (List.mem_cons_self k0 ks))]
      simp only [prod_fst_mk, prod_snd_mk, Bool.false_or]
      exact ih (fun k hk hg => h k (List.mem_cons_of_mem k0 hk) hg)
    · rw [if_neg hs]
      exact ih (fun k hk hg => h k (List.mem_cons_of_mem k0 hk) hg)

/-- Key presence in a metrics dict. -/
def PresAt (m : Metrics) (k : String) : Prop := (m.lookup k).isSome = true

theorem apply_all_presAt (keys : List String) (rec : Metrics)
    {mc : Metrics × Bool} {k : String} (h : PresAt mc.1 k) :
    PresAt ((apply_keys_all keys rec mc).1) k := by
  show (((apply_keys_all keys rec mc).1).lookup k).isSome = true
  rw [apply_all_lookup]
  by_cases hc : k ∈ keys ∧ good_offer rec k
  · rw [if_pos hc]
    rfl
  · rw [if_neg hc]
    exact h

theorem apply_in_presAt (keys : List String) (rec : Metrics)
    {mc : Metrics × Bool} {k : String} (h : PresAt mc.1 k) :
    PresAt ((apply_keys_in keys rec mc).1) k := by
  show (((apply_keys_in keys rec mc).1).lookup k).isSome = true
  rw [apply_in_lookup]
  by_cases hc : k ∈ keys ∧ good_offer rec k
  · rw [if_pos hc]
    rfl
  · rw [if_neg hc]
    exact h

theorem kr_step_presAt (krVal krRet : Cache) (country ticker : String)
    {mc : Metrics × Bool} {k : String} (h : PresAt mc.1 k) :
    PresAt ((kr_step krVal krRet country ticker mc).1) k := by
  rw [kr_step]
  by_cases h1 : country = "KR" ∧ ticker ≠ ""
  · rw [if_pos h1]
    by_cases h2 : _is_valid_kr_ticker (pyZfill ticker 6) = true
    · rw [if_pos h2]
      have hmc1 : PresAt (match krVal.lookup (pyZfill ticker 6) with
          | some val =>
            if val ≠ [] ∧ _is_meaningful_valuation val then apply_keys_in VAL_KEYS val mc
            else mc
          | none => mc).1 k := by
        rcases krVal.lookup (pyZfill ticker 6) with _ | val
        · exact h
        · by_cases h3 : val ≠ [] ∧ _is_meaningful_valuation val = true
          · simp only [if_pos h3]
            exact apply_in_presAt _ _ h
          · simp only [if_neg h3]
            exact h
      rcases krRet.lookup (pyZfill ticker 6) with _ | ret
      · exact hmc1
      · by_cases h4 : ret ≠ []
        · simp only [if_pos h4]
          exact apply_all_presAt _ _ (apply_all_presAt _ _ hmc1)
        · simp only [if_neg h4]
          exact hmc1
    · rw [if_neg h2]
      exact h
  · rw [if_neg h1]
    exact h

theorem us_step_presAt (fmpVal : Cache) (aid country : String)
    {mc : Metrics × Bool} {k : String} (h : PresAt mc.1 k) :
    PresAt ((us_step fmpVal aid country mc).1) k := by
  rw [us_step]
  by_cases h1 : aid ≠ "" ∧ country = "US"
  · rw [if_pos h1]
    rcases fmpVal.lookup aid with _ | fmp
    · exact h
    · by_cases h2 : fmp ≠ [] ∧ _is_meaningful_valuation fmp = true
      · simp only [if_pos h2]
        exact apply_in_presAt _ _ h
      · simp only [if_neg h2]
        exact h
  · rw [if_neg h1]
    exact h

theorem all_step_presAt (retAll : Cache) (aid : String)
    {mc : Metrics × Bool} {k : String} (h : PresAt mc.1 k) :
    PresAt ((all_step retAll aid mc).1) k := by
  rw [all_step]
  by_cases h1 : aid ≠ ""
  · rw [if_pos h1]
    rcases retAll.lookup aid with _ | r
    · exact h
    · by_cases h2 : r ≠ []
      · simp only [if_pos h2]
        exact apply_all_presAt _ _ (apply_all_presAt _ _ h)
      · simp only [if_neg h2]
        exact h
  · rw [if_neg h1]
    exact h

theorem ensure_covers (m : Option Metrics) :
    ∀ rk ∈ RETURN_KEYS, PresAt ((_ensure_asset_metrics_shape m).1) rk := by
  intro rk hrk
  rw [_ensure_asset_metrics_shape.eq_def]
  have haux : ∀ (keys : List String) (s : Metrics × Bool) (k0 : String), k0 ∈ keys →
      PresAt ((keys.foldl (fun (acc : Metrics × Bool) (rk : String) =>
        if (acc.1.lookup rk).isSome then acc
        else (setKey acc.1 rk JValue.null, true)) s)).1 k0 := by
    intro keys
    induction keys with
    | nil =>
      intro s k0 h0
      cases h0
    | cons b bs ih =>
      intro s k0 h0
      rw [List.foldl_cons]
      rcases List.mem_cons.mp h0 with rfl | h02
      · refine foldl_preserves (fun (acc : Metrics × Bool) => PresAt acc.1 k0) _ bs ?_ _ ?_
        · intro s2 b2 hp
          by_cases hb : (s2.1.lookup b2).isSome = true
          · rw [if_pos hb]
            exact hp
          · rw [if_neg hb]
            by_cases hk2 : k0 = b2
            · show (List.lookup k0 (setKey s2.1 b2 JValue.null)).isSome = true
              subst hk2
              rw [lookup_setKey_self]
              rfl
            · show (List.lookup k0 (setKey s2.1 b2 JValue.null)).isSome = true
              rw [lookup_setKey_ne s2.1 b2 JValue.null hk2]
              exact hp
        · by_cases hb : (s.1.lookup k0).isSome = true
          · rw [if_pos hb]
            exact hb
          · rw [if_neg hb]
            show (List.lookup k0 (setKey s.1 k0 JValue.null)).isSome = true
            rw [lookup_setKey_self]
            rfl
      · exact ih _ k0 h02
  exact haux RETURN_KEYS _ rk hrk

theorem ensure_of_complete (m : Metrics)
    (h : ∀ rk ∈ RETURN_KEYS, PresAt m rk) :
    _ensure_asset_metrics_shape (some m) = (m, false) := by
  rw [_ensure_asset_metrics_shape.eq_def]
  have haux : ∀ (keys : List String), (∀ rk ∈ keys, PresAt m rk) →
      (keys.foldl (fun (acc : Metrics × Bool) (rk : String) =>
        if (acc.1.lookup rk).isSome then acc
        else (setKey acc.1 rk JValue.null, true)) ((m : Metrics), false)) = (m, false) := by
    intro keys
    induction keys with
    | nil =>
      intro _
      rfl
    | cons b bs ih =>
      intro hb
      rw [List.foldl_cons, if_pos (show (List.lookup b ((m : Metrics), false).1).isSome = true
        from hb b (List.mem_cons_self b bs))]
      exact ih (fun rk hrk => hb rk (List.mem_cons_of_mem b hrk))
  exact haux RETURN_KEYS h

/-- The KR-returns section would touch this node: KR country, valid 6-digit
ticker, and a non-empty cache record for it. -/
def kr_ret_applicable (krRet : Cache) (country ticker : String) : Prop :=
  country = "KR" ∧ ticker ≠ "" ∧ _is_valid_kr_ticker (pyZfill ticker 6) = true ∧
  ∃ ret, krRet.lookup (pyZfill ticker 6) = some ret ∧ ret ≠ []

/-- The catch-all returns section would touch this node: non-empty assetId
with a non-empty cache record for it. -/
def ret_all_applicable (retAll : Cache) (aid : String) : Prop :=
  aid ≠ "" ∧ ∃ r, retAll.lookup aid = some r ∧ r ≠ []

/-- The three injection sections composed, as `inject_metrics_into_theme`
runs them on one node's metrics. -/
def pipeline (krVal krRet fmpVal retAll : Cache) (c t a : String)
    (mc : Metrics × Bool) : Metrics × Bool :=
  all_step retAll a (us_step fmpVal a c (kr_step krVal krRet c t mc))

theorem kr_step_noop (krVal krRet : Cache) (country ticker : String) (m : Metrics)
    (hval : country = "KR" ∧ ticker ≠ "" → _is_valid_kr_ticker (pyZfill ticker 6) = true →
      ∀ val, krVal.lookup (pyZfill ticker 6) = some val → val ≠ [] →
        _is_meaningful_valuation val = true →
        ∀ k ∈ VAL_KEYS, good_offer val k → List.lookup k m = some (offer val k))
    (hret : country = "KR" ∧ ticker ≠ "" → _is_valid_kr_ticker (pyZfill ticker 6) = true →
      ∀ ret, krRet.lookup (pyZfill ticker 6) = some ret → ret ≠ [] →
        ∀ k, k ∈ RETURN_KEYS ∨ k ∈ RET_META_KEYS → good_offer ret k →
          List.lookup k m = some (offer ret k)) :
    kr_step krVal krRet country ticker (m, false) = (m, false) := by
  rw [kr_step]
  by_cases h1 : country = "KR" ∧ ticker ≠ ""
  · rw [if_pos h1]
    by_cases h2 : _is_valid_kr_ticker (pyZfill ticker 6) = true
    · rw [if_pos h2]
      have hmc1 : (match krVal.lookup (pyZfill ticker 6) with
          | some val =>
            if val ≠ [] ∧ _is_meaningful_valuation val
            then apply_keys_in VAL_KEYS val (m, false) else (m, false)
          | none => (m, false)) = ((m : Metrics), false) := by
        rcases he : krVal.lookup (pyZfill ticker 6) with _ | val
        · rfl
        · by_cases h3 : val ≠ [] ∧ _is_meaningful_valuation val = true
          · simp only [if_pos h3]
            exact apply_in_noop VAL_KEYS val m false
              (fun k hk hg => hval h1 h2 val he h3.1 h3.2 k hk hg)
          · simp only [if_neg h3]
      rcases he2 : krRet.lookup (pyZfill ticker 6) with _ | ret
      · exact hmc1
      · by_cases h4 : ret ≠ []
        · simp only [if_pos h4]
          rw [hmc1]
          rw [apply_all_noop RETURN_KEYS ret m false
            (fun k hk hg => hret h1 h2 ret he2 h4 k (Or.inl hk) hg)]
          exact apply_all_noop RET_META_KEYS ret m false
            (fun k hk hg => hret h1 h2 ret he2 h4 k (Or.inr hk) hg)
        · simp only [if_neg h4]
          exact hmc1
    · rw [if_neg h2]
  · rw [if_neg h1]

theorem us_step_noop (fmpVal : Cache) (aid country : String) (m : Metrics)
    (h : aid ≠ "" ∧ country = "US" →
      ∀ fmp, fmpVal.lookup aid = some fmp → fmp ≠ [] →
        _is_meaningful_valuation fmp = true →
        ∀ k ∈ VAL_KEYS, good_offer fmp k → List.lookup k m = some (offer fmp k)) :
    us_step fmpVal aid country (m, false) = (m, false) := by
  rw [us_step]
  by_cases h1 : aid ≠ "" ∧ country = "US"
  · rw [if_pos h1]
    rcases he : fmpVal.lookup aid with _ | fmp
    · rfl
    · by_cases h2 : fmp ≠ [] ∧ _is_meaningful_valuation fmp = true
      · simp only [if_pos h2]
        exact apply_in_noop VAL_KEYS fmp m false
          (fun k hk hg => h h1 fmp he h2.1 h2.2 k hk hg)
      · simp only [if_neg h2]
  · rw [if_neg h1]

theorem all_step_noop (retAll : Cache) (aid : String) (m : Metrics)
    (h : aid ≠ "" → ∀ r, retAll.lookup aid = some r → r ≠ [] →
      ∀ k, k ∈ RETURN_KEYS ∨ k ∈ RET_META_KEYS → good_offer r k →
        List.lookup k m = some (offer r k)) :
    all_step retAll aid (m, false) = (m, false) := by
  rw [all_step]
  by_cases h1 : aid ≠ ""
  · rw [if_pos h1]
    rcases he : retAll.lookup aid with _ | r
    · rfl
    · by_cases h2 : r ≠ []
      · simp only [if_pos h2]
        rw [apply_all_noop RETURN_KEYS r m false
          (fun k hk hg => h h1 r he h2 k (Or.inl hk) hg)]
        exact apply_all_noop RET_META_KEYS r m false
          (fun k hk hg => h h1 r he h2 k (Or.inr hk) hg)
      · simp only [if_neg h2]
  · rw [if_neg h1]

theorem us_step_id (fmpVal : Cache) (aid country : String) (mc : Metrics × Bool)
    (h : ¬(aid ≠ "" ∧ country = "US")) : us_step fmpVal aid country mc = mc := by
  rw [us_step, if_neg h]

theorem all_step_id_of_not (retAll : Cache) (aid : String) (mc : Metrics × Bool)
    (h : ¬ ret_all_applicable retAll aid) : all_step retAll aid mc = mc := by
  rw [all_step]
  by_cases h1 : aid ≠ ""
  · rw [if_pos h1]
    rcases he : retAll.lookup aid with _ | r
    · rfl
    · by_cases h2 : r ≠ []
      · exact absurd ⟨h1, r, he, h2⟩ h
      · simp only [if_neg h2]
  · rw [if_neg h1]

theorem all_step_frame (retAll : Cache) (aid : String) (mc : Metrics × Bool) (k : String)
    (hk1 : k ∉ RETURN_KEYS) (hk2 : k ∉ RET_META_KEYS) :
    List.lookup k (all_step retAll aid mc).1 = List.lookup k mc.1 := by
  rw [all_step]
  by_cases h1 : aid ≠ ""
  · rw [if_pos h1]
    rcases retAll.lookup aid with _ | r
    · rfl
    · by_cases h2 : r ≠ []
      · simp only [if_pos h2]
        rw [apply_all_lookup]
        have hn1 : ¬(k ∈ RET_META_KEYS ∧ good_offer r k) := fun hc => hk2 hc.1
        rw [if_neg hn1, apply_all_lookup]
        have hn2 : ¬(k ∈ RETURN_KEYS ∧ good_offer r k) := fun hc => hk1 hc.1
        rw [if_neg hn2]
      · simp only [if_neg h2]
  · rw [if_neg h1]

theorem all_step_touch (retAll : Cache) (aid : String) (mc : Metrics × Bool)
    {r : Metrics} (ha : aid ≠ "") (he : retAll.lookup aid = some r) (hne : r ≠ [])
    (k : String) (hk : k ∈ RETURN_KEYS ∨ k ∈ RET_META_KEYS) (hg : good_offer r k) :
    List.lookup k (all_step retAll aid mc).1 = some (offer r k) := by
  rw [all_step, if_pos ha]
  rcases hl : retAll.lookup aid with _ | r2
  · exact Option.noConfusion (he.symm.trans hl)
  · have hr : r2 = r := Option.some.inj (hl.symm.trans he)
    rw [hr]
    simp only [if_pos hne]
    rw [apply_all_lookup]
    by_cases hm : k ∈ RET_META_KEYS
    · have hp : k ∈ RET_META_KEYS ∧ good_offer r k := ⟨hm, hg⟩
      rw [if_pos hp]
    · have hn : ¬(k ∈ RET_META_KEYS ∧ good_offer r k) := fun hc => hm hc.1
      rw [if_neg hn, apply_all_lookup]
      have hp : k ∈ RETURN_KEYS ∧ good_offer r k := ⟨hk.resolve_right hm, hg⟩
      rw [if_pos hp]

theorem kr_step_lookup_val (krVal krRet : Cache) (country ticker : String)
    (mc : Metrics × Bool) {val : Metrics}
    (h1 : country = "KR" ∧ ticker ≠ "")
    (h2 : _is_valid_kr_ticker (pyZfill ticker 6) = true)
    (he : krVal.lookup (pyZfill ticker 6) = some val) (hne : val ≠ [])
    (hmf : _is_meaningful_valuation val = true)
    {k : String} (hk : k ∈ VAL_KEYS) (hg : good_offer val k) :
    List.lookup k (kr_step krVal krRet country ticker mc).1 = some (offer val k) := by
  rw [kr_step, if_pos h1, if_pos h2]
  have hdis : ∀ k2 ∈ VAL_KEYS, k2 ∉ RETURN_KEYS ∧ k2 ∉ RET_META_KEYS := by decide
  have hbase : List.lookup k ((match krVal.lookup (pyZfill ticker 6) with
      | some val2 =>
        if val2 ≠ [] ∧ _is_meaningful_valuation val2
        then apply_keys_in VAL_KEYS val2 mc else mc
      | none => mc)).1 = some (offer val k) := by
    rcases hl : krVal.lookup (pyZfill ticker 6) with _ | val2
    · exact Option.noConfusion (he.symm.trans hl)
    · have hr : val2 = val := Option.some.inj (hl.symm.trans he)
      rw [hr]
      have hp : val ≠ [] ∧ _is_meaningful_valuation val = true := ⟨hne, hmf⟩
      simp only [if_pos hp]
      rw [apply_in_lookup]
      have hp2 : k ∈ VAL_KEYS ∧ good_offer val k := ⟨hk, hg⟩
      rw [if_pos hp2]
  rcases krRet.lookup (pyZfill ticker 6) with _ | ret
  · exact hbase
  · by_cases h4 : ret ≠ []
    · simp only [if_pos h4]
      rw [apply_all_lookup]
      have hn1 : ¬(k ∈ RET_META_KEYS ∧ good_offer ret k) := fun hc => (hdis k hk).2 hc.1
      rw [if_neg hn1, apply_all_lookup]
      have hn2 : ¬(k ∈ RETURN_KEYS ∧ good_offer ret k) := fun hc => (hdis k hk).1 hc.1
      rw [if_neg hn2]
      exact hbase
    · simp only [if_neg h4]
      exact hbase

theorem kr_step_lookup_ret (krVal krRet : Cache) (country ticker : String)
    (mc : Metrics × Bool) {ret : Metrics}
    (h1 : country = "KR" ∧ ticker ≠ "")
    (h2 : _is_valid_kr_ticker (pyZfill ticker 6) = true)
    (he : krRet.lookup (pyZfill ticker 6) = some ret) (hne : ret ≠ [])
    {k : String} (hk : k ∈ RETURN_KEYS ∨ k ∈ RET_META_KEYS) (hg : good_offer ret k) :
    List.lookup k (kr_step krVal krRet country ticker mc).1 = some (offer ret k) := by
  rw [kr_step, if_pos h1, if_pos h2]
  rcases hl : krRet.lookup (pyZfill ticker 6) with _ | ret2
  · exact Option.noConfusion (he.symm.trans hl)
  · have hr : ret2 = ret := Option.some.inj (hl.symm.trans he)
    rw [hr]
    simp only [if_pos hne]
    rw [apply_all_lookup]
    by_cases hm : k ∈ RET_META_KEYS
    · have hp : k ∈ RET_META_KEYS ∧ good_offer ret k := ⟨hm, hg⟩
      rw [if_pos hp]
    · have hn : ¬(k ∈ RET_META_KEYS ∧ good_offer ret k) := fun hc => hm hc.1
      rw [if_neg hn, apply_all_lookup]
      have hp : k ∈ RETURN_KEYS ∧ good_offer ret k := ⟨hk.resolve_right hm, hg⟩
      rw [if_pos hp]

theorem us_step_lookup_val (fmpVal : Cache) (aid country : String) (mc : Metrics × Bool)
    {fmp : Metrics} (h1 : aid ≠ "" ∧ country = "US")
    (he : fmpVal.lookup aid = some fmp) (hne : fmp ≠ [])
    (hmf : _is_meaningful_valuation fmp = true)
    {k : String} (hk : k ∈ VAL_KEYS) (hg : good_offer fmp k) :
    List.lookup k (us_step fmpVal aid country mc).1 = some (offer fmp k) := by
  rw [us_step, if_pos h1]
  rcases hl : fmpVal.lookup aid with _ | fmp2
  · exact Option.noConfusion (he.symm.trans hl)
  · have hr : fmp2 = fmp := Option.some.inj (hl.symm.trans he)
    rw [hr]
    have hp : fmp ≠ [] ∧ _is_meaningful_valuation fmp = true := ⟨hne, hmf⟩
    simp only [if_pos hp]
    rw [apply_in_lookup]
    have hp2 : k ∈ VAL_KEYS ∧ good_offer fmp k := ⟨hk, hg⟩
    rw [if_pos hp2]

/-- Unless the KR-returns and catch-all returns sections are both
applicable to the same node (a cache conflict), the injection pipeline is
a no-op on its own output. -/
theorem pipeline_noop (krVal krRet fmpVal retAll : Cache) (c t a : String) (e : Metrics)
    (hnd : ¬(kr_ret_applicable krRet c t ∧ ret_all_applicable retAll a)) :
    pipeline krVal krRet fmpVal retAll c t a
      ((pipeline krVal krRet fmpVal retAll c t a (e, false)).1, false)
    = ((pipeline krVal krRet fmpVal retAll c t a (e, false)).1, false) := by
  set m1 := (pipeline krVal krRet fmpVal retAll c t a (e, false)).1 with hm1
  show all_step retAll a (us_step fmpVal a c (kr_step krVal krRet c t (m1, false)))
    = (m1, false)
  have hval : c = "KR" ∧ t ≠ "" → _is_valid_kr_ticker (pyZfill t 6) = true →
      ∀ val, krVal.lookup (pyZfill t 6) = some val → val ≠ [] →
        _is_meaningful_valuation val = true →
        ∀ k ∈ VAL_KEYS, good_offer val k → List.lookup k m1 = some (offer val k) := by
    intro h1 h2 val he hne hmf k hk hg
    rw [hm1, pipeline]
    have hd := (show ∀ k2 ∈ VAL_KEYS, k2 ∉ RETURN_KEYS ∧ k2 ∉ RET_META_KEYS from
      by decide) k hk
    rw [all_step_frame retAll a _ k hd.1 hd.2]
    rw [us_step_id fmpVal a c _ (show ¬(a ≠ "" ∧ c = "US") from fun hc =>
      absurd (h1.1.symm.trans hc.2) (by decide))]
    exact kr_step_lookup_val krVal krRet c t _ h1 h2 he hne hmf hk hg
  have hret : c = "KR" ∧ t ≠ "" → _is_valid_kr_ticker (pyZfill t 6) = true →
      ∀ ret, krRet.lookup (pyZfill t 6) = some ret → ret ≠ [] →
        ∀ k, k ∈ RETURN_KEYS ∨ k ∈ RET_META_KEYS → good_offer ret k →
          List.lookup k m1 = some (offer ret k) := by
    intro h1 h2 ret he hne k hk hg
    have hkrA : kr_ret_applicable krRet c t := ⟨h1.1, h1.2, h2, ret, he, hne⟩
    have hnallA : ¬ ret_all_applicable retAll a := fun hall => hnd ⟨hkrA, hall⟩
    rw [hm1, pipeline, all_step_id_of_not retAll a _ hnallA]
    rw [us_step_id fmpVal a c _ (show ¬(a ≠ "" ∧ c = "US") from fun hc =>
      absurd (h1.1.symm.trans hc.2) (by decide))]
    exact kr_step_lookup_ret krVal krRet c t _ h1 h2 he hne hk hg
  have hus : a ≠ "" ∧ c = "US" →
      ∀ fmp, fmpVal.lookup a = some fmp → fmp ≠ [] →
        _is_meaningful_valuation fmp = true →
        ∀ k ∈ VAL_KEYS, good_offer fmp k → List.lookup k m1 = some (offer fmp k) := by
    intro h1 fmp he hne hmf k hk hg
    rw [hm1, pipeline]
    have hd := (show ∀ k2 ∈ VAL_KEYS, k2 ∉ RETURN_KEYS ∧ k2 ∉ RET_META_KEYS from
      by decide) k hk
    rw [all_step_frame retAll a _ k hd.1 hd.2]
    exact us_step_lookup_val fmpVal a c _ h1 he hne hmf hk hg
  have hall : a ≠ "" → ∀ r, retAll.lookup a = some r → r ≠ [] →
      ∀ k, k ∈ RETURN_KEYS ∨ k ∈ RET_META_KEYS → good_offer r k →
        List.lookup k m1 = some (offer r k) := by
    intro h1 r he hne k hk hg
    rw [hm1, pipeline]
    exact all_step_touch retAll a _ h1 he hne k hk hg
  rw [kr_step_noop krVal krRet c t m1 hval hret, us_step_noop fmpVal a c m1 hus,
    all_step_noop retAll a m1 hall]

/-- On a node where the KR-returns and catch-all returns sections do not
both apply, a second `inject_node` run is the identity, reports no value
change and no structural change. -/
theorem inject_node_idem (krVal krRet fmpVal retAll : Cache) (n : Node)
    (hnd : ¬(kr_ret_applicable krRet (pyStrip (pyUpper n.country)) (pyStrip n.ticker) ∧
             ret_all_applicable retAll (pyStrip n.id))) :
    inject_node krVal krRet fmpVal retAll (inject_node krVal krRet fmpVal retAll n).1 =
      ((inject_node krVal krRet fmpVal retAll n).1, false, false) := by
  have hpres : ∀ rk ∈ RETURN_KEYS, PresAt (pipeline krVal krRet fmpVal retAll
      (pyStrip (pyUpper n.country)) (pyStrip n.ticker) (pyStrip n.id)
      ((_ensure_asset_metrics_shape n.metrics).1, false)).1 rk := by
    intro rk hrk
    exact all_step_presAt _ _ (us_step_presAt _ _ _ (kr_step_presAt _ _ _ _
      (ensure_covers n.metrics rk hrk)))
  have hens : _ensure_asset_metrics_shape (some (pipeline krVal krRet fmpVal retAll
      (pyStrip (pyUpper n.country)) (pyStrip n.ticker) (pyStrip n.id)
      ((_ensure_asset_metrics_shape n.metrics).1, false)).1)
      = ((pipeline krVal krRet fmpVal retAll (pyStrip (pyUpper n.country))
          (pyStrip n.ticker) (pyStrip n.id)
          ((_ensure_asset_metrics_shape n.metrics).1, false)).1, false) :=
    ensure_of_complete _ hpres
  have hpipe := pipeline_noop krVal krRet fmpVal retAll (pyStrip (pyUpper n.country))
    (pyStrip n.ticker) (pyStrip n.id) (_ensure_asset_metrics_shape n.metrics).1 hnd
  show ((⟨n.typ, n.id, n.country, n.ticker,
      some (pipeline krVal krRet fmpVal retAll (pyStrip (pyUpper n.country))
        (pyStrip n.ticker) (pyStrip n.id)
        ((_ensure_asset_metrics_shape (some (pipeline krVal krRet fmpVal retAll
          (pyStrip (pyUpper n.country)) (pyStrip n.ticker) (pyStrip n.id)
          ((_ensure_asset_metrics_shape n.metrics).1, false)).1)).1, false)).1⟩ : Node),
    (pipeline krVal krRet fmpVal retAll (pyStrip (pyUpper n.country)) (pyStrip n.ticker)
        (pyStrip n.id)
        ((_ensure_asset_metrics_shape (some (pipeline krVal krRet fmpVal retAll
          (pyStrip (pyUpper n.country)) (pyStrip n.ticker) (pyStrip n.id)
          ((_ensure_asset_metrics_shape n.metrics).1, false)).1)).1, false)).2,
    (_ensure_asset_metrics_shape (some (pipeline krVal krRet fmpVal retAll
        (pyStrip (pyUpper n.country)) (pyStrip n.ticker) (pyStrip n.id)
        ((_ensure_asset_metrics_shape n.metrics).1, false)).1)).2)
    = ((⟨n.typ, n.id, n.country, n.ticker,
      some (pipeline krVal krRet fmpVal retAll (pyStrip (pyUpper n.country))
        (pyStrip n.ticker) (pyStrip n.id)
        ((_ensure_asset_metrics_shape n.metrics).1, false)).1⟩ : Node), false, false)
  rw [hens]
  simp only [prod_fst_mk, prod_snd_mk]
  rw [hpipe]

/-- If a second `inject_node` run is the identity on every ASSET node of
the list, then a whole second theme run returns the list unchanged with
zero updates and no structural change. -/
theorem inject_theme_noop (krVal krRet fmpVal retAll : Cache) (l : List Node)
    (h : ∀ n ∈ l, n.typ = "ASSET" →
      inject_node krVal krRet fmpVal retAll n = (n, false, false)) :
    inject_metrics_into_theme krVal krRet fmpVal retAll l = ⟨l, 0, false⟩ := by
  rw [inject_metrics_into_theme]
  have haux : ∀ (l2 : List Node), (∀ n ∈ l2, n.typ = "ASSET" →
      inject_node krVal krRet fmpVal retAll n = (n, false, false)) →
      ∀ (acc : InjectResult),
      (l2.foldl (fun acc n =>
        if n.typ = "ASSET" then
          (⟨acc.nodes ++ [(inject_node krVal krRet fmpVal retAll n).1],
           acc.updated + (if (inject_node krVal krRet fmpVal retAll n).2.1 then 1 else 0),
           acc.structural || (inject_node krVal krRet fmpVal retAll n).2.2⟩ : InjectResult)
        else ⟨acc.nodes ++ [n], acc.updated, acc.structural⟩) acc)
      = ⟨acc.nodes ++ l2, acc.updated, acc.structural⟩ := by
    intro l2
    induction l2 with
    | nil =>
      intro _ acc
      simp
    | cons n ns ih =>
      intro h2 acc
      rw [List.foldl_cons]
      by_cases ht : n.typ = "ASSET"
      · rw [if_pos ht, h2 n (List.mem_cons_self n ns) ht,
          ih (fun n2 hn2 => h2 n2 (List.mem_cons_of_mem n hn2))]
        simp
      · rw [if_neg ht, ih (fun n2 hn2 => h2 n2 (List.mem_cons_of_mem n hn2))]
        simp
  rw [haux l h ⟨[], 0, false⟩]
  simp

/-- The counterexample node: a KR asset whose ticker is in the KR returns
cache while its assetId is in the all-assets returns cache with a
different value. -/
def c4node : Node := ⟨"ASSET", "A_088", "KR", "005930", none⟩

/-- KR returns cache offering `return_3d = 1`. -/
def c4krRet : Cache := [("005930", [("return_3d", JValue.num 1)])]

/-- Catch-all returns cache offering `return_3d = 2` for the same asset. -/
def c4retAll : Cache := [("A_088", [("return_3d", JValue.num 2)])]

end BuildFreeze

/-- C4. Amended: a metric field is written only when the offered value is
non-null, non-blank and differs from the stored value; and the injector is
idempotent — a second run changes no value, makes no structural change and
performs no write — provided no node has both the KR-returns section (by
ticker) and the catch-all returns section (by assetId) applicable with
their two caches, which can disagree and then flip the value on every run
(see the counterexample). -/
theorem C4_injection_idempotent_amended
    (krVal krRet fmpVal retAll : BuildFreeze.Cache) (nodes : List BuildFreeze.Node)
    (hnd : ∀ n ∈ nodes,
      ¬(BuildFreeze.kr_ret_applicable krRet (pyStrip (pyUpper n.country))
          (pyStrip n.ticker) ∧
        BuildFreeze.ret_all_applicable retAll (pyStrip n.id))) :
    (∀ m k v, (BuildFreeze._set_if_meaningful m k v).2 = true →
      v ≠ BuildFreeze.JValue.null ∧ BuildFreeze.isBlankStr v = false ∧
        m.lookup k ≠ some v) ∧
    BuildFreeze.inject_metrics_into_theme krVal krRet fmpVal retAll
        (BuildFreeze.inject_metrics_into_theme krVal krRet fmpVal retAll nodes).nodes =
      ⟨(BuildFreeze.inject_metrics_into_theme krVal krRet fmpVal retAll nodes).nodes,
        0, false⟩ ∧
    BuildFreeze.should_write (BuildFreeze.inject_metrics_into_theme krVal krRet fmpVal
        retAll (BuildFreeze.inject_metrics_into_theme krVal krRet fmpVal retAll
          nodes).nodes) = false := by
  have hgate : ∀ m k v, (BuildFreeze._set_if_meaningful m k v).2 = true →
      v ≠ BuildFreeze.JValue.null ∧ BuildFreeze.isBlankStr v = false ∧
        m.lookup k ≠ some v := by
    intro m k v h
    rw [BuildFreeze._set_if_meaningful] at h
    by_cases h1 : v = BuildFreeze.JValue.null
    · rw [if_pos h1] at h
      exact Bool.noConfusion h
    · rw [if_neg h1] at h
      by_cases h2 : BuildFreeze.isBlankStr v = true
      · rw [if_pos h2] at h
        exact Bool.noConfusion h
      · rw [if_neg h2] at h
        by_cases h3 : m.lookup k = some v
        · rw [if_pos h3] at h
          exact Bool.noConfusion h
        · rw [if_neg h3] at h
          exact ⟨h1, by simpa using h2, h3⟩
  have hnode : ∀ n1 ∈ (BuildFreeze.inject_metrics_into_theme krVal krRet fmpVal retAll
        nodes).nodes, n1.typ = "ASSET" →
      BuildFreeze.inject_node krVal krRet fmpVal retAll n1 = (n1, false, false) := by
    intro n1 hn1 ht
    rw [BuildFreeze.inject_theme_nodes] at hn1
    rcases List.mem_map.mp hn1 with ⟨n, hn, hfn⟩
    by_cases htn : n.typ = "ASSET"
    · rw [if_pos htn] at hfn
      rw [← hfn]
      exact BuildFreeze.inject_node_idem krVal krRet fmpVal retAll n (hnd n hn)
    · rw [if_neg htn] at hfn
      rw [← hfn] at ht
      exact absurd ht htn
  have h2 := BuildFreeze.inject_theme_noop krVal krRet fmpVal retAll _ hnode
  refine ⟨hgate, h2, ?_⟩
  rw [h2]
  rfl

/-- Witness for C4: a KR asset whose ticker is in the KR returns cache
while the catch-all returns cache is empty — the second injection run is a
no-op and triggers no write. -/
theorem C4_injection_idempotent_amended_witness :
    (∀ m k v, (BuildFreeze._set_if_meaningful m k v).2 = true →
      v ≠ BuildFreeze.JValue.null ∧ BuildFreeze.isBlankStr v = false ∧
        m.lookup k ≠ some v) ∧
    BuildFreeze.inject_metrics_into_theme [] BuildFreeze.c4krRet [] []
        (BuildFreeze.inject_metrics_into_theme [] BuildFreeze.c4krRet [] []
          [BuildFreeze.c4node]).nodes =
      ⟨(BuildFreeze.inject_metrics_into_theme [] BuildFreeze.c4krRet [] []
          [BuildFreeze.c4node]).nodes, 0, false⟩ ∧
    BuildFreeze.should_write (BuildFreeze.inject_metrics_into_theme [] BuildFreeze.c4krRet
        [] [] (BuildFreeze.inject_metrics_into_theme [] BuildFreeze.c4krRet [] []
          [BuildFreeze.c4node]).nodes) = false :=
  C4_injection_idempotent_amended [] BuildFreeze.c4krRet [] [] [BuildFreeze.c4node] (by
    intro n hn
    rintro ⟨-, -, r, hr, -⟩
    exact Option.noConfusion hr)

/-- C4 counterexample: when the KR returns cache (keyed by ticker) and the
all-assets returns cache (keyed by assetId) offer different values of
`return_3d` for the same node, the two sections overwrite each other on
every run, so the second run still reports a change and re-writes the
file — the injector is not idempotent as claimed. -/
theorem C4_counterexample :
    BuildFreeze.should_write (BuildFreeze.inject_metrics_into_theme [] BuildFreeze.c4krRet
      [] BuildFreeze.c4retAll (BuildFreeze.inject_metrics_into_theme [] BuildFreeze.c4krRet
        [] BuildFreeze.c4retAll [BuildFreeze.c4node]).nodes) = true ∧
    (BuildFreeze.inject_metrics_into_theme [] BuildFreeze.c4krRet [] BuildFreeze.c4retAll
      (BuildFreeze.inject_metrics_into_theme [] BuildFreeze.c4krRet [] BuildFreeze.c4retAll
        [BuildFreeze.c4node]).nodes).updated = 1 := by
  refine ⟨?_, ?_⟩ <;> decide

end ImportMT
